import Mathlib

/-!
Shallow embedding of the WorkTimer time-tracking core (the SQLite-backed
time/customer/project/bonus logic of the repository) together with proofs of
the specification claims about it.

Dates are stored by the program as ISO `YYYY-MM-DD` strings and compared by
SQLite lexicographically; for well-formed dates that ordering coincides with
the numeric ordering of the key `year*10000 + month*100 + day`, which is how
we model it.  Timestamps (`datetime`) are a date plus a second-of-day.  The
program's `JULIANDAY(x) - JULIANDAY(y)` difference is modelled by the
difference of proleptic-Gregorian day numbers plus second fractions, which
agrees with SQLite's julian-day difference exactly.
-/

namespace WorkTimer

/-- A calendar date (the program stores `YYYY-MM-DD` strings). -/
structure Date where
  year : Nat
  month : Nat
  day : Nat
  deriving DecidableEq, Repr

/-- Numeric key of a date; for well-formed dates its order is the order SQLite
gives `YYYY-MM-DD` strings.  Also the program's `date_key` (`YYYYMMDD`). -/
def Date.key (d : Date) : Nat := d.year * 10000 + d.month * 100 + d.day

/-- SQL `BETWEEN` comparison of ISO date strings, as numeric key order. -/
def dateLE (a b : Date) : Bool := a.key ≤ b.key

/-- Gregorian leap-year rule (as in Python's `datetime`). -/
def isLeap (y : Nat) : Bool := (y % 4 = 0 && y % 100 ≠ 0) || y % 400 = 0

/-- Number of days in a month (Python `datetime` calendar). -/
def daysInMonth (y m : Nat) : Nat :=
  if m = 2 then (if isLeap y then 29 else 28)
  else if m = 4 ∨ m = 6 ∨ m = 9 ∨ m = 11 then 30
  else 31

/-- `date - timedelta(days=1)` from the Python source: the previous calendar
day. -/
def dateSub1 (d : Date) : Date :=
  if d.day > 1 then ⟨d.year, d.month, d.day - 1⟩
  else if d.month > 1 then ⟨d.year, d.month - 1, daysInMonth d.year (d.month - 1)⟩
  else ⟨d.year - 1, 12, 31⟩

/-- Days before the first of month `m` in a non-leap year. -/
def monthOffset (m : Nat) : Nat :=
  match m with
  | 1 => 0 | 2 => 31 | 3 => 59 | 4 => 90 | 5 => 120 | 6 => 151
  | 7 => 181 | 8 => 212 | 9 => 243 | 10 => 273 | 11 => 304 | 12 => 334
  | _ => 0

/-- Proleptic-Gregorian day number (rata die) of a date, used to model the
day part of SQLite's `JULIANDAY`; only differences of this function are ever
used, so the epoch offset of the real julian day cancels. -/
def rataDie (d : Date) : Nat :=
  let y := d.year - 1
  365 * y + y / 4 - y / 100 + y / 400 + monthOffset d.month +
    (if d.month > 2 ∧ isLeap d.year then 1 else 0) + d.day

/-- A `datetime` value: a date plus the second of the day. -/
structure DateTime where
  date : Date
  secs : Nat
  deriving DecidableEq, Repr

/-- SQLite `JULIANDAY` of a datetime, modulo the constant epoch offset
(which cancels in every use, all of which are differences). -/
def julianday (t : DateTime) : ℚ := (rataDie t.date : ℚ) + (t.secs : ℚ) / 86400

/-! ## Sentinel far-future dates

Each comparison site in the source that coalesces a NULL upper bound writes
its own literal; we name each site's literal so the claims about their
consistency are about these definitions. -/

/-- Sentinel in `__get_customer_id`: `COALESCE(valid_to, '2099-12-31')`. -/
def customerSentinel : Date := ⟨2099, 12, 31⟩

/-- Sentinel in the bonus lookup of `insert_time_row`:
`coalesce(end_date, '2099-12-31')`. -/
def bonusCloseSentinel : Date := ⟨2099, 12, 31⟩

/-- Sentinel in the reporting join of `__get_value`:
`coalesce(b.end_date, '2099-12-31')`. -/
def reportSentinel : Date := ⟨2099, 12, 31⟩

/-- Sentinel in the recompute path `__update_value_id`:
`coalesce(end_date, '2099-12-31')`. -/
def updateValueSentinel : Date := ⟨2099, 12, 31⟩

/-- Sentinel in the startup check `__validate_db` (WorkTimer.pyw):
`coalesce(end_date, '2999-12-31')`. -/
def validateSentinel : Date := ⟨2999, 12, 31⟩

/-! ## Table rows -/

/-- A row of the `customers` table.  `customer_id` is the autoincrement
primary key, so each temporal version of a customer has its own id; the
lineage is identified by `customer_name`. -/
structure CustomerRow where
  customer_id : Int
  customer_name : String
  start_date : Date
  wage : Int
  valid_from : Date
  valid_to : Option Date
  is_current : Nat
  inserted_at : Option DateTime
  updated_at : Option DateTime
  deriving DecidableEq, Repr

/-- A row of the `projects` table. -/
structure ProjectRow where
  project_id : Int
  customer_id : Int
  project_name : String
  is_current : Nat
  deriving DecidableEq, Repr

/-- A row of the `bonus` table. -/
structure BonusRow where
  bonus_id : Int
  bonus_percent : ℚ
  start_date : Date
  end_date : Option Date
  deriving DecidableEq, Repr

/-- A row of the `time` table.  The derived columns are NULL until the span
is closed, hence `Option`.  Note the source stores the bonus *percent* in
column `bonus` and the bonus *amount* (`cost * percent`) in column `wage`. -/
structure TimeRow where
  time_id : Nat
  customer_id : Int
  customer_name : String
  project_id : Int
  project_name : String
  start_time : DateTime
  end_time : Option DateTime
  comment : Option String
  date_key : Nat
  total_time : Option ℚ
  cost : Option ℚ
  bonus : Option ℚ
  wage : Option ℚ
  deriving DecidableEq, Repr

/-- The database state: the four mutable tables in row (insertion) order plus
the autoincrement counters.  The `dates` dimension table is generated once
for 2020-01-01 .. 2030-12-31 and never mutated; it is modelled by the
`dateKeyLookup` function below. -/
structure DB where
  customers : List CustomerRow
  projects : List ProjectRow
  bonus : List BonusRow
  time : List TimeRow
  nextCustomerId : Int
  nextProjectId : Int
  nextBonusId : Int
  nextTimeId : Nat
  deriving DecidableEq, Repr

/-- The freshly initialized database (`initialize_db` on a new file):
empty tables, autoincrement counters at 1. -/
def emptyDB : DB := ⟨[], [], [], [], 1, 1, 1, 1⟩

/-- `select * from dates where date = '{today}'` followed by `.iloc[0, 0]`:
the date dimension holds exactly 2020-01-01 .. 2030-12-31, `date_key` is the
`YYYYMMDD` number, and a date outside the horizon has no row (the Python then
raises and the operation aborts with the database unchanged). -/
def dateKeyLookup (d : Date) : Option Nat :=
  if 2020 ≤ d.year ∧ d.year ≤ 2030 then some d.key else none

/-! ## Resolution (rate lookup) functions -/

/-- `__get_customer_id`: the id of the first `customers` row with the given
name whose `[valid_from, COALESCE(valid_to, '2099-12-31')]` interval contains
the date; `-1` when there is none (the "no match" fallback, no exception). -/
def __get_customer_id (s : DB) (customer_name : String) (d : Date) : Int :=
  match s.customers.find? (fun r =>
      r.customer_name = customer_name ∧
      dateLE r.valid_from d ∧ dateLE d (r.valid_to.getD customerSentinel)) with
  | some r => r.customer_id
  | none => -1

/-- `__get_project_id`: the id of the first `projects` row with the given
name (no customer or `is_current` filter in the source), `-1` when none. -/
def __get_project_id (s : DB) (project_name : String) : Int :=
  match s.projects.find? (fun r => r.project_name = project_name) with
  | some r => r.project_id
  | none => -1

/-- The wage lookup of the close path of `insert_time_row`:
`SELECT wage FROM customers where customer_id = {id}`, defaulting to `0`
when the result is empty. -/
def wageOfId (s : DB) (cid : Int) : Int :=
  match s.customers.find? (fun r => r.customer_id = cid) with
  | some r => r.wage
  | none => 0

/-- The bonus lookup of the close path of `insert_time_row`:
`SELECT bonus_percent FROM bonus where '{today}' between start_date and
coalesce(end_date, '2099-12-31')`, defaulting to `0.0` when empty. -/
def bonusOfDate (s : DB) (d : Date) : ℚ :=
  match s.bonus.find? (fun r =>
      dateLE r.start_date d ∧ dateLE d (r.end_date.getD bonusCloseSentinel)) with
  | some r => r.bonus_percent
  | none => 0

/-- The pair of independent lookups the ledger combines at close time
(spec §4.3): customer wage resolved through `__get_customer_id` plus the
wage select, and the bonus percent interval lookup.  Total by construction;
a resolution miss yields the zero-rate fallback. -/
def resolveRate (s : DB) (customer_name : String) (d : Date) : Int × ℚ :=
  (wageOfId s (__get_customer_id s customer_name d), bonusOfDate s d)

/-- The bonus percent the reporting query `__get_value` joins onto a time
row (NULL when no interval covers the row's start date):
`left join bonus b on date(t.start_time) between b.start_date and
coalesce(b.end_date, '2099-12-31')`. -/
def reportBonusPercent (s : DB) (d : Date) : Option ℚ :=
  (s.bonus.find? (fun r =>
      dateLE r.start_date d ∧ dateLE d (r.end_date.getD reportSentinel))).map
    (fun r => r.bonus_percent)

/-- The bonus lookup of the recompute path `__update_value_id`:
same interval condition with its own `'2099-12-31'` literal. -/
def updateValueBonus (s : DB) (d : Date) : ℚ :=
  match s.bonus.find? (fun r =>
      dateLE r.start_date d ∧ dateLE d (r.end_date.getD updateValueSentinel)) with
  | some r => r.bonus_percent
  | none => 0

/-- The startup check of `__validate_db` (WorkTimer.pyw): the count of bonus
rows whose `[start_date, coalesce(end_date, '2999-12-31')]` interval contains
the current date. -/
def validBonusCount (s : DB) (today : Date) : Nat :=
  s.bonus.countP (fun r =>
    dateLE r.start_date today ∧ dateLE today (r.end_date.getD validateSentinel))

/-! ## Mutating operations -/

/-- `insert_customer`: closes every `is_current = 1` row of the name
(`valid_to := start_date - 1 day`, `is_current := 0`, `updated_at := now`)
and appends the new open current version (`valid_to` NULL, `is_current` 1). -/
def insert_customer (s : DB) (now : DateTime) (customer_name : String)
    (start_date : Date) (wage : Int) (valid_from : Date) : DB :=
  let valid_to := dateSub1 start_date
  { s with
    customers :=
      (s.customers.map (fun r =>
        if r.customer_name = customer_name ∧ r.is_current = 1 then
          { r with is_current := 0, valid_to := some valid_to, updated_at := some now }
        else r)) ++
      [⟨s.nextCustomerId, customer_name, start_date, wage, valid_from, none, 1,
        some now, none⟩],
    nextCustomerId := s.nextCustomerId + 1 }

/-- The `WHERE customer_id = ? and project_id = ? and date(start_time) = ?`
condition of the toggle's row fetch. -/
def timeKeyB (cid pid : Int) (today : Date) (r : TimeRow) : Bool :=
  decide (r.customer_id = cid ∧ r.project_id = pid ∧ r.start_time.date = today)

/-- The rows `insert_time_row` fetches before toggling: the pair's time rows
whose `date(start_time)` is today, in table order (`order by time_id desc` is
applied by `argmaxId` below). -/
def dayRows (s : DB) (cid pid : Int) (today : Date) : List TimeRow :=
  s.time.filter (timeKeyB cid pid today)

/-- `order by time_id desc` followed by `rows[0]`: the row with the largest
`time_id` (ids are unique, so the tie case never occurs). -/
def argmaxId (l : List TimeRow) : Option TimeRow :=
  l.foldl (fun acc r =>
    match acc with
    | none => some r
    | some a => if a.time_id < r.time_id then some r else some a) none

/-- The record update the close branch of `insert_time_row` performs on the
target row (the SQL `UPDATE time SET ... WHERE time_id = :time_id`). -/
def closeRow (now : DateTime) (w b : ℚ) (comment : Option String)
    (r : TimeRow) : TimeRow :=
  { r with end_time := some now,
           total_time := some ((julianday now - julianday r.start_time) * 24),
           cost := some ((julianday now - julianday r.start_time) * 24 * w),
           bonus := some b,
           wage := some ((julianday now - julianday r.start_time) * 24 * w * b),
           comment := comment }

/-- `insert_time_row`, the ledger toggle.  `now` is either the wall clock or
the historic `"{date} {time}"` argument pair; in both cases `today` is its
date part.  Resolves the pair, aborts unchanged on a resolution miss or a
date outside the date dimension, then either inserts a fresh open row (when
the pair has no open row *started today*) or closes the day's row with the
largest `time_id`, filling the derived columns: `total_time` in hours from
the julian-day difference, `cost = hours * wage`, column `bonus` = the bonus
percent, column `wage` = `hours * wage * percent` (the bonus amount). -/
def insert_time_row (s : DB) (now : DateTime) (customer_name project_name : String)
    (comment : Option String) : DB :=
  let today := now.date
  let cid := __get_customer_id s customer_name today
  let pid := __get_project_id s project_name
  if cid = -1 ∨ pid = -1 then s
  else
    match dateKeyLookup today with
    | none => s
    | some dk =>
      let rows := dayRows s cid pid today
      if rows.all (fun r => r.end_time.isSome) then
        { s with
          time := s.time ++
            [⟨s.nextTimeId, cid, customer_name, pid, project_name, now, none,
              none, dk, none, none, none, none⟩],
          nextTimeId := s.nextTimeId + 1 }
      else
        match argmaxId rows with
        | none => s
        | some target =>
          { s with
            time := s.time.map (fun r =>
              if r.time_id = target.time_id then
                closeRow now (wageOfId s cid) (bonusOfDate s today) comment r
              else r) }

/-- `insert_project`: resolves the customer id as of today (`-1` on a miss is
inserted as-is, the source does not check) and appends the project row. -/
def insert_project (s : DB) (today : Date) (project_name customer_name : String)
    (is_current : Bool) : DB :=
  { s with
    projects := s.projects ++
      [⟨s.nextProjectId, __get_customer_id s customer_name today, project_name,
        if is_current then 1 else 0⟩],
    nextProjectId := s.nextProjectId + 1 }

/-- `insert_bonus`: when called with no `end_date` it first sets
`end_date = start_date - 1 day` on every row whose `end_date` is NULL, then
appends the new row; with an `end_date` it only appends. -/
def insert_bonus (s : DB) (bonus_percent : ℚ) (start_date : Date)
    (end_date : Option Date) : DB :=
  let closed :=
    if end_date.isNone then
      s.bonus.map (fun r =>
        if r.end_date.isNone then { r with end_date := some (dateSub1 start_date) }
        else r)
    else s.bonus
  { s with
    bonus := closed ++ [⟨s.nextBonusId, bonus_percent, start_date, end_date⟩],
    nextBonusId := s.nextBonusId + 1 }

/-- `__add_customer_project`: looks up the customer's *first* table row,
rejects when a current project of that name exists for that row's id,
reactivates the first matching row when only disabled ones exist, and
otherwise inserts a fresh project row via `insert_project`. -/
def __add_customer_project (s : DB) (today : Date)
    (p_name c_name : String) : DB × Bool × String :=
  match s.customers.find? (fun r => r.customer_name = c_name) with
  | none => (s, false, "Customer does not exist in the database!")
  | some c0 =>
    let ps := s.projects.filter (fun p =>
      p.project_name = p_name ∧ p.customer_id = c0.customer_id)
    if 0 < (ps.filter (fun p => p.is_current = 1)).length then
      (s, false, "Project already exists in database!")
    else if 0 < (ps.filter (fun p => p.is_current = 0)).length then
      match ps.head? with
      | some p0 =>
        ({ s with projects := s.projects.map (fun p =>
            if p.project_id = p0.project_id then { p with is_current := 1 } else p) },
         true, "Project has been reactivated!")
      | none => (s, false, "")
    else
      (insert_project s today p_name c_name true, true, "Successfully added new Project")

/-- `__disable_customer_project`: soft-deletes one project row by id. -/
def __disable_customer_project (s : DB) (p_id : Int) : DB :=
  { s with projects := s.projects.map (fun p =>
      if p.project_id = p_id then { p with is_current := 0 } else p) }

/-- `__add_customer`: inserts a new version when the name is new or has a
current row, reactivates the *first* table row of the name when only
disabled rows exist. -/
def __add_customer (s : DB) (now : DateTime) (c_name : String) (s_date : Date)
    (wage : Int) : DB × Bool × String :=
  let cs := s.customers.filter (fun r => r.customer_name = c_name)
  match s.customers.find? (fun r => r.customer_name = c_name) with
  | none =>
    (insert_customer s now c_name s_date wage s_date, true,
     "Customer added to the database!")
  | some c0 =>
    if 0 < (cs.filter (fun r => r.is_current = 1)).length then
      (insert_customer s now c_name s_date wage s_date, true,
       "Customer already exists in the database, updating wage!")
    else if 0 < (cs.filter (fun r => r.is_current = 0)).length then
      ({ s with customers := s.customers.map (fun r =>
          if r.customer_id = c0.customer_id then { r with is_current := 1 } else r) },
       true, "Customer has been reactivated!")
    else (s, false, "Unknown operation!")

/-- `__disable_customer`: soft-deletes every row of the name. -/
def __disable_customer (s : DB) (c_name : String) : DB :=
  { s with customers := s.customers.map (fun r =>
      if r.customer_name = c_name then { r with is_current := 0 } else r) }

/-- `__update_value_id`: recomputes the derived columns of one time row from
its own bounds; with a NULL `end_time` the julian-day expressions are NULL
(only the `bonus` column, a plain parameter, is still written). -/
def __update_value_id (s : DB) (val : Nat) : DB :=
  match s.time.find? (fun r => r.time_id = val) with
  | none => s
  | some row =>
    let w : ℚ := wageOfId s row.customer_id
    let b : ℚ := updateValueBonus s row.start_time.date
    { s with time := s.time.map (fun r =>
        if r.time_id = val then
          match row.end_time with
          | some e =>
            { r with total_time := some ((julianday e - julianday r.start_time) * 24),
                     cost := some ((julianday e - julianday r.start_time) * 24 * w),
                     bonus := some b,
                     wage := some ((julianday e - julianday r.start_time) * 24 * w * b) }
          | none =>
            { r with total_time := none, cost := none, bonus := some b, wage := none }
        else r) }

/-! ## Reachable database states -/

/-- The states reachable from a fresh database through the program's fixed
operation surface (ad-hoc SQL from the user-trusted query editor excluded). -/
inductive Reachable : DB → Prop where
  | empty : Reachable emptyDB
  | insert_customer_step (s : DB) (now : DateTime) (n : String) (sd : Date)
      (w : Int) (vf : Date) :
      Reachable s → Reachable (insert_customer s now n sd w vf)
  | insert_time_row_step (s : DB) (now : DateTime) (cn pn : String)
      (c : Option String) :
      Reachable s → Reachable (insert_time_row s now cn pn c)
  | insert_project_step (s : DB) (today : Date) (pn cn : String) (b : Bool) :
      Reachable s → Reachable (insert_project s today pn cn b)
  | insert_bonus_step (s : DB) (p : ℚ) (sd : Date) (ed : Option Date) :
      Reachable s → Reachable (insert_bonus s p sd ed)
  | add_customer_project_step (s : DB) (today : Date) (pn cn : String) :
      Reachable s → Reachable (__add_customer_project s today pn cn).1
  | disable_project_step (s : DB) (pid : Int) :
      Reachable s → Reachable (__disable_customer_project s pid)
  | add_customer_step (s : DB) (now : DateTime) (cn : String) (sd : Date)
      (w : Int) :
      Reachable s → Reachable (__add_customer s now cn sd w).1
  | disable_customer_step (s : DB) (cn : String) :
      Reachable s → Reachable (__disable_customer s cn)
  | update_value_step (s : DB) (v : Nat) :
      Reachable s → Reachable (__update_value_id s v)

/-! ## Derived counts used by the claims -/

/-- Open (`end_time` NULL) time rows of a pair, over all dates. -/
def openCountPair (s : DB) (cid pid : Int) : Nat :=
  s.time.countP (fun r =>
    r.customer_id = cid ∧ r.project_id = pid ∧ r.end_time = none)

/-- Open time rows of a pair started on a given date. -/
def openCountDay (s : DB) (cid pid : Int) (d : Date) : Nat :=
  s.time.countP (fun r => timeKeyB cid pid d r && decide (r.end_time = none))

/-- All time rows of a pair started on a given date. -/
def keyCountDay (s : DB) (cid pid : Int) (d : Date) : Nat :=
  s.time.countP (timeKeyB cid pid d)

/-- Fully closed time rows of a pair started on a given date. -/
def closedCountDay (s : DB) (cid pid : Int) (d : Date) : Nat :=
  s.time.countP (fun r => timeKeyB cid pid d r && !decide (r.end_time = none))

/-- Rows of a customer-name lineage that are marked current. -/
def currentCount (s : DB) (name : String) : Nat :=
  s.customers.countP (fun r => r.customer_name = name ∧ r.is_current = 1)

/-- Rows of a lineage that are simultaneously current and open-ended. -/
def currentOpenCount (s : DB) (name : String) : Nat :=
  s.customers.countP (fun r =>
    r.customer_name = name ∧ r.is_current = 1 ∧ r.valid_to = none)

/-- Bonus rows with a NULL `end_date`. -/
def openBonusCount (s : DB) : Nat :=
  s.bonus.countP (fun r => r.end_date = none)

/-- The first time row carrying a given `time_id` (`select * from time where
time_id = ...`); ids are unique in every reachable state. -/
def lookupTime (s : DB) (tid : Nat) : Option TimeRow :=
  s.time.find? (fun r => r.time_id = tid)

/-- Every open time row of a (pair, start-date) key carries the largest
`time_id` of the key: the toggle only opens a row when every earlier row of
the key is closed, so the open one is always the latest. -/
def OpenMaxL (l : List TimeRow) : Prop :=
  ∀ r ∈ l, r.end_time = none → ∀ q ∈ l,
    q.customer_id = r.customer_id → q.project_id = r.project_id →
    q.start_time.date = r.start_time.date → q.time_id ≤ r.time_id

/-- The invariant maintained by every operation: time ids are bounded by the
autoincrement counter and distinct, the open row of a (pair, day) key is the
latest and unique, customer ids are positive, bounded, and distinct, each
name lineage has at most one current row, and at most one bonus row is
open-ended. -/
structure Inv (s : DB) : Prop where
  timeIdLt : ∀ r ∈ s.time, r.time_id < s.nextTimeId
  timeNodup : s.time.Pairwise (fun a b => a.time_id ≠ b.time_id)
  openMax : OpenMaxL s.time
  openDayLe : ∀ cid pid d, openCountDay s cid pid d ≤ 1
  custIdPos : ∀ r ∈ s.customers, 1 ≤ r.customer_id
  custIdLt : ∀ r ∈ s.customers, r.customer_id < s.nextCustomerId
  custNodup : s.customers.Pairwise (fun a b => a.customer_id ≠ b.customer_id)
  currentLe : ∀ n, currentCount s n ≤ 1
  nextCustPos : 1 ≤ s.nextCustomerId
  openBonusLe : openBonusCount s ≤ 1

/-! ## The task dispatcher

Modelled from the spec: the `Database` class (file `database.py`) that
implements `queue_task` and `process_queue` is not part of src/ (only its
callers in WorkTimer.pyw are).  Per spec §4.5, UI threads submit
`(operation_name, params, optional_response_channel)` tuples to a FIFO
queue; one worker drains the queue strictly in submission order, executes
each operation against the single connection, and posts the result to the
response channel when one was supplied.  The queue is modelled as the list
of tasks in submission order and the worker as sequential execution. -/

/-- Modelled from the spec: a queued task — a named storage operation with
its parameters.  Mutations return no payload; reads return a number. -/
inductive DbTask where
  | insertCustomerT (now : DateTime) (n : String) (sd : Date) (w : Int)
      (vf : Date)
  | insertBonusT (p : ℚ) (sd : Date) (ed : Option Date)
  | insertTimeRowT (now : DateTime) (cn pn : String) (c : Option String)
  | readOpenBonusCountT
  | readCurrentCountT (n : String)

/-- Modelled from the spec: the worker executing one dequeued task against
the store, producing the new store and the optional response value. -/
def execTask (s : DB) (t : DbTask) : DB × Option Nat :=
  match t with
  | DbTask.insertCustomerT now n sd w vf => (insert_customer s now n sd w vf, none)
  | DbTask.insertBonusT p sd ed => (insert_bonus s p sd ed, none)
  | DbTask.insertTimeRowT now cn pn c => (insert_time_row s now cn pn c, none)
  | DbTask.readOpenBonusCountT => (s, some (openBonusCount s))
  | DbTask.readCurrentCountT n => (s, some (currentCount s n))

/-- Modelled from the spec: `Database.process_queue` — the single worker
drains the queue strictly in submission order, threading the one store
through every task and delivering responses in the same order. -/
def process_queue (s : DB) (ts : List DbTask) : DB × List (Option Nat) :=
  match ts with
  | [] => (s, [])
  | t :: rest =>
    let p := execTask s t
    let q := process_queue p.1 rest
    (q.1, p.2 :: q.2)

/-! ## Concrete scenario states used by witnesses and counterexamples -/

/-- 2024-01-01, the base date of the concrete scenarios. -/
def exDate : Date := ⟨2024, 1, 1⟩

/-- A timestamp on `exDate` at hour `h`. -/
def exDT (h : Nat) : DateTime := ⟨exDate, h * 3600⟩

/-- Fresh database with one customer (wage 100, valid from 2024-01-01), one
project, and one open-ended 25% bonus from 2024-01-01. -/
def exBase : DB :=
  insert_bonus
    (insert_project (insert_customer emptyDB (exDT 8) "Acme" exDate 100 exDate)
      exDate "Web" "Acme" true)
    (1/4) exDate none

/-- `exBase` after toggling (Acme, Web) at 10:00: one open span. -/
def exOpen : DB := insert_time_row exBase (exDT 10) "Acme" "Web" none

/-- `exOpen` after toggling again at 12:00: the span closes with 2 hours. -/
def exClosed : DB := insert_time_row exOpen (exDT 12) "Acme" "Web" none

/-- `exClosed` after a third toggle at 13:00: a fresh open span. -/
def exTriple : DB := insert_time_row exClosed (exDT 13) "Acme" "Web" none

/-- `exBase` after opening a span on 2024-01-02 and never closing it. -/
def exCross1 : DB :=
  insert_time_row exBase ⟨⟨2024, 1, 2⟩, 36000⟩ "Acme" "Web" none

/-- `exCross1` after toggling again on 2024-01-03: the stale open span from
the day before is not found, and a second open row is inserted. -/
def exCross2 : DB :=
  insert_time_row exCross1 ⟨⟨2024, 1, 3⟩, 32400⟩ "Acme" "Web" none

/-- Customer "Acme" added through the UI path on 2024-01-01. -/
def exVer1 : DB := (__add_customer emptyDB (exDT 8) "Acme" exDate 100).1

/-- A wage update on 2024-02-01 creates version 2 (`customer_id` 2) and
closes version 1. -/
def exVer2 : DB := (__add_customer exVer1 (exDT 9) "Acme" ⟨2024, 2, 1⟩ 120).1

/-- Project "Web" added to the two-version customer: the stored row
references version 2's id. -/
def exProj1 : DB := (__add_customer_project exVer2 ⟨2024, 2, 1⟩ "Web" "Acme").1

/-- `exBase` with its project soft-deleted, ready for reactivation. -/
def exDisabled : DB := __disable_customer_project exBase 1

/-! ## General list lemmas -/

theorem countP_conj_split {α : Type} (p q : α → Bool) (l : List α) :
    l.countP (fun a => p a && q a) + l.countP (fun a => p a && !q a) =
      l.countP p := by
  induction l with
  | nil => simp
  | cons a t ih =>
    simp only [List.countP_cons]
    cases hp : p a <;> cases hq : q a <;> simp [hp, hq] <;> omega

theorem countP_map_le {α : Type} (p : α → Bool) (f : α → α) (l : List α)
    (h : ∀ a, p (f a) = true → p a = true) :
    (l.map f).countP p ≤ l.countP p := by
  rw [List.countP_map]
  exact List.countP_mono_left (fun a _ ha => h a ha)

theorem countP_map_eq {α : Type} (p : α → Bool) (f : α → α) (l : List α)
    (h : ∀ a ∈ l, p (f a) = p a) :
    (l.map f).countP p = l.countP p := by
  rw [List.countP_map]
  exact List.countP_congr (fun a ha => by simp [Function.comp, h a ha])

theorem countP_key_le_one {α β : Type} [DecidableEq β] (f : α → β) (v : β)
    (l : List α) (hl : l.Pairwise (fun a b => f a ≠ f b)) :
    l.countP (fun a => f a = v) ≤ 1 := by
  induction l with
  | nil => simp
  | cons a t ih =>
    rw [List.pairwise_cons] at hl
    rw [List.countP_cons]
    by_cases hv : f a = v
    · have hz : t.countP (fun b => decide (f b = v)) = 0 := by
        rw [List.countP_eq_zero]
        intro b hb
        simp only [decide_eq_true_eq]
        exact fun hbv => hl.1 b hb (hv.trans hbv.symm)
      simp [hz, hv]
    · simpa [hv] using ih hl.2

theorem pairwise_key_inj {α β : Type} (f : α → β) (l : List α)
    (hl : l.Pairwise (fun a b => f a ≠ f b)) :
    ∀ a ∈ l, ∀ b ∈ l, f a = f b → a = b := by
  induction l with
  | nil => intro a ha; simp at ha
  | cons c t ih =>
    rw [List.pairwise_cons] at hl
    intro a ha b hb hf
    rcases List.mem_cons.mp ha with ha1 | ha1
    · rcases List.mem_cons.mp hb with hb1 | hb1
      · exact ha1.trans hb1.symm
      · exact absurd (ha1 ▸ hf) (hl.1 b hb1)
    · rcases List.mem_cons.mp hb with hb1 | hb1
      · exact absurd (hb1 ▸ hf.symm) (hl.1 a ha1)
      · exact ih hl.2 a ha1 b hb1 hf

theorem head?_filter_eq_find? {α : Type} (p : α → Bool) (l : List α) :
    (l.filter p).head? = l.find? p := by
  induction l with
  | nil => rfl
  | cons a t ih =>
    by_cases hp : p a
    · simp [List.filter_cons, List.find?_cons, hp]
    · simp only [List.filter_cons, List.find?_cons]
      rw [if_neg hp, ih]
      cases hq : p a
      · rfl
      · exact absurd hq hp

/-! ## Lemmas about `argmaxId` (the `order by time_id desc` selection) -/

theorem argmax_aux_spec (l : List TimeRow) :
    ∀ (acc : Option TimeRow) (r : TimeRow),
      l.foldl (fun acc x =>
        match acc with
        | none => some x
        | some a => if a.time_id < x.time_id then some x else some a) acc = some r →
      (r ∈ l ∨ acc = some r) ∧
      (∀ x ∈ l, x.time_id ≤ r.time_id) ∧
      (∀ a, acc = some a → a.time_id ≤ r.time_id) := by
  induction l with
  | nil =>
    intro acc r h
    simp only [List.foldl_nil] at h
    exact ⟨Or.inr h, by simp, fun a ha => by rw [ha] at h; cases h; exact le_refl _⟩
  | cons x t ih =>
    intro acc r h
    simp only [List.foldl_cons] at h
    rcases hacc : acc with _ | a
    · rw [hacc] at h
      obtain ⟨hm, hub, hacc2⟩ := ih (some x) r h
      refine ⟨?_, ?_, ?_⟩
      · rcases hm with hm | hm
        · exact Or.inl (List.mem_cons_of_mem _ hm)
        · exact Or.inl (List.mem_cons.mpr (Or.inl (by cases hm; rfl)))
      · intro y hy
        rcases List.mem_cons.mp hy with rfl | hy
        · exact hacc2 y rfl
        · exact hub y hy
      · intro a ha; cases ha
    · rw [hacc] at h
      have hred : (match some a with
          | none => some x
          | some b => if b.time_id < x.time_id then some x else some b) =
          if a.time_id < x.time_id then some x else some a := rfl
      rw [hred] at h
      by_cases hlt : a.time_id < x.time_id
      · rw [if_pos hlt] at h
        obtain ⟨hm, hub, hacc2⟩ := ih (some x) r h
        refine ⟨?_, ?_, ?_⟩
        · rcases hm with hm | hm
          · exact Or.inl (List.mem_cons_of_mem _ hm)
          · exact Or.inl (List.mem_cons.mpr (Or.inl (by cases hm; rfl)))
        · intro y hy
          rcases List.mem_cons.mp hy with rfl | hy
          · exact hacc2 y rfl
          · exact hub y hy
        · intro b hb
          injection hb with hb1
          subst hb1
          exact le_of_lt (lt_of_lt_of_le hlt (hacc2 x rfl))
      · rw [if_neg hlt] at h
        obtain ⟨hm, hub, hacc2⟩ := ih (some a) r h
        refine ⟨?_, ?_, ?_⟩
        · rcases hm with hm | hm
          · exact Or.inl (List.mem_cons_of_mem _ hm)
          · exact Or.inr (hacc ▸ hm)
        · intro y hy
          rcases List.mem_cons.mp hy with rfl | hy
          · exact le_trans (Nat.le_of_not_lt hlt) (hacc2 a rfl)
          · exact hub y hy
        · intro b hb
          injection hb with hb1
          subst hb1
          exact hacc2 a rfl

theorem argmaxId_mem {l : List TimeRow} {r : TimeRow}
    (h : argmaxId l = some r) : r ∈ l := by
  rcases (argmax_aux_spec l none r h).1 with hm | hm
  · exact hm
  · cases hm

theorem argmaxId_ub {l : List TimeRow} {r : TimeRow}
    (h : argmaxId l = some r) : ∀ x ∈ l, x.time_id ≤ r.time_id :=
  (argmax_aux_spec l none r h).2.1

theorem foldl_argmax_some (t : List TimeRow) :
    ∀ a : TimeRow,
      ∃ r, t.foldl (fun acc x =>
        match acc with
        | none => some x
        | some b => if b.time_id < x.time_id then some x else some b)
        (some a) = some r := by
  induction t with
  | nil => intro a; exact ⟨a, rfl⟩
  | cons y t2 ih =>
    intro a
    simp only [List.foldl_cons]
    by_cases hlt : a.time_id < y.time_id
    · rw [if_pos hlt]; exact ih y
    · rw [if_neg hlt]; exact ih a

theorem argmaxId_isSome {l : List TimeRow} (h : l ≠ []) :
    ∃ r, argmaxId l = some r := by
  rcases l with _ | ⟨x, t⟩
  · exact absurd rfl h
  · unfold argmaxId
    simp only [List.foldl_cons]
    exact foldl_argmax_some t x

/-! ## Shape lemmas about `insert_time_row` -/

theorem openCountDay_eq_countP_dayRows (s : DB) (cid pid : Int) (d : Date) :
    openCountDay s cid pid d =
      (dayRows s cid pid d).countP (fun r => decide (r.end_time = none)) := by
  rw [openCountDay, dayRows, List.countP_filter]
  exact List.countP_congr (fun r _ => by
    cases h1 : timeKeyB cid pid d r <;>
      cases h2 : decide (r.end_time = none) <;> simp [h1, h2])

theorem keyCountDay_eq_length_dayRows (s : DB) (cid pid : Int) (d : Date) :
    keyCountDay s cid pid d = (dayRows s cid pid d).length := by
  rw [keyCountDay, dayRows, List.countP_eq_length_filter]

theorem all_closed_iff_openCountDay_zero (s : DB) (cid pid : Int) (d : Date) :
    ((dayRows s cid pid d).all (fun r => r.end_time.isSome) = true) ↔
      openCountDay s cid pid d = 0 := by
  rw [openCountDay_eq_countP_dayRows, List.countP_eq_zero, List.all_eq_true]
  constructor <;> intro h r hr
  · have h1 := h r hr
    rw [Option.isSome_iff_ne_none] at h1
    simp [h1]
  · have h1 := h r hr
    simp only [decide_eq_true_eq] at h1
    exact Option.isSome_iff_ne_none.mpr h1

theorem insert_time_row_tables (s : DB) (now : DateTime) (cn pn : String)
    (c : Option String) :
    (insert_time_row s now cn pn c).customers = s.customers ∧
    (insert_time_row s now cn pn c).projects = s.projects ∧
    (insert_time_row s now cn pn c).bonus = s.bonus ∧
    (insert_time_row s now cn pn c).nextCustomerId = s.nextCustomerId := by
  unfold insert_time_row
  dsimp only
  repeat' split
  all_goals exact ⟨rfl, rfl, rfl, rfl⟩

theorem insert_time_row_insert_eq (s : DB) (now : DateTime) (cn pn : String)
    (c : Option String) (dk : Nat)
    (hc1 : ¬ __get_customer_id s cn now.date = -1)
    (hp1 : ¬ __get_project_id s pn = -1)
    (hdk : dateKeyLookup now.date = some dk)
    (hopen : openCountDay s (__get_customer_id s cn now.date)
      (__get_project_id s pn) now.date = 0) :
    insert_time_row s now cn pn c =
      { s with
        time := s.time ++
          [⟨s.nextTimeId, __get_customer_id s cn now.date, cn,
            __get_project_id s pn, pn, now, none, none, dk,
            none, none, none, none⟩],
        nextTimeId := s.nextTimeId + 1 } := by
  have hall := (all_closed_iff_openCountDay_zero s _ _ now.date).mpr hopen
  unfold insert_time_row
  dsimp only
  rw [if_neg (by push_neg; exact ⟨hc1, hp1⟩), hdk]
  dsimp only
  rw [if_pos hall]

theorem insert_time_row_close_eq (s : DB) (now : DateTime) (cn pn : String)
    (c : Option String) (dk : Nat) (target : TimeRow)
    (hc1 : ¬ __get_customer_id s cn now.date = -1)
    (hp1 : ¬ __get_project_id s pn = -1)
    (hdk : dateKeyLookup now.date = some dk)
    (hopen : 0 < openCountDay s (__get_customer_id s cn now.date)
      (__get_project_id s pn) now.date)
    (htarget : argmaxId (dayRows s (__get_customer_id s cn now.date)
      (__get_project_id s pn) now.date) = some target) :
    insert_time_row s now cn pn c =
      { s with
        time := s.time.map (fun r =>
          if r.time_id = target.time_id then
            closeRow now (wageOfId s (__get_customer_id s cn now.date))
              (bonusOfDate s now.date) c r
          else r) } := by
  have hall : ¬ ((dayRows s (__get_customer_id s cn now.date)
      (__get_project_id s pn) now.date).all (fun r => r.end_time.isSome) = true) := by
    intro hz
    rw [all_closed_iff_openCountDay_zero] at hz
    omega
  unfold insert_time_row
  dsimp only
  rw [if_neg (by push_neg; exact ⟨hc1, hp1⟩), hdk]
  dsimp only
  rw [if_neg hall, htarget]

theorem insert_time_row_abort_resolution (s : DB) (now : DateTime)
    (cn pn : String) (c : Option String)
    (h : __get_customer_id s cn now.date = -1 ∨ __get_project_id s pn = -1) :
    insert_time_row s now cn pn c = s := by
  unfold insert_time_row
  dsimp only
  rw [if_pos h]

theorem insert_time_row_abort_datekey (s : DB) (now : DateTime)
    (cn pn : String) (c : Option String)
    (h1 : ¬ __get_customer_id s cn now.date = -1)
    (h2 : ¬ __get_project_id s pn = -1)
    (h : dateKeyLookup now.date = none) :
    insert_time_row s now cn pn c = s := by
  unfold insert_time_row
  dsimp only
  rw [if_neg (by push_neg; exact ⟨h1, h2⟩), h]

/-! ## The open-row-is-latest property and the effect of closing -/

theorem openMaxL_map (l : List TimeRow) (g : TimeRow → TimeRow)
    (hid : ∀ a, (g a).time_id = a.time_id)
    (hcid : ∀ a, (g a).customer_id = a.customer_id)
    (hpid : ∀ a, (g a).project_id = a.project_id)
    (hdate : ∀ a, (g a).start_time.date = a.start_time.date)
    (hopen : ∀ a, (g a).end_time = none → a.end_time = none)
    (h : OpenMaxL l) : OpenMaxL (l.map g) := by
  intro r' hr' hre q' hq' hc hp hd
  obtain ⟨a, ha, rfl⟩ := List.mem_map.mp hr'
  obtain ⟨b, hb, rfl⟩ := List.mem_map.mp hq'
  rw [hid, hid]
  rw [hcid, hcid] at hc
  rw [hpid, hpid] at hp
  rw [hdate, hdate] at hd
  exact h a ha (hopen a hre) b hb hc hp hd

theorem timeKeyB_mem_dayRows {s : DB} {cid pid : Int} {d : Date} {r : TimeRow}
    (hr : r ∈ s.time) (hk : timeKeyB cid pid d r = true) :
    r ∈ dayRows s cid pid d :=
  List.mem_filter.mpr ⟨hr, hk⟩

theorem openCountDay_close_zero (s : DB) (now : DateTime) (w b : ℚ)
    (c : Option String) (cid pid : Int) (d : Date) (target : TimeRow)
    (hmax : OpenMaxL s.time)
    (htarget : argmaxId (dayRows s cid pid d) = some target) :
    openCountDay
      { s with time := s.time.map (fun r =>
          if r.time_id = target.time_id then closeRow now w b c r else r) }
      cid pid d = 0 := by
  rw [openCountDay]
  dsimp only
  rw [List.countP_map, List.countP_eq_zero]
  intro a ha
  simp only [Function.comp]
  intro hp
  rw [Bool.and_eq_true] at hp
  obtain ⟨hk, he⟩ := hp
  rw [decide_eq_true_eq] at he
  by_cases hid : a.time_id = target.time_id
  · rw [if_pos hid] at he
    simp [closeRow] at he
  · rw [if_neg hid] at hk he
    have hk2 := hk
    rw [timeKeyB, decide_eq_true_eq] at hk2
    obtain ⟨hkc, hkp, hkd⟩ := hk2
    have htm := argmaxId_mem htarget
    rw [dayRows, List.mem_filter] at htm
    obtain ⟨htmem, htk⟩ := htm
    have htk2 := htk
    rw [timeKeyB, decide_eq_true_eq] at htk2
    obtain ⟨htc, htp, htd⟩ := htk2
    have h1 : target.time_id ≤ a.time_id :=
      hmax a ha he target htmem (htc.trans hkc.symm) (htp.trans hkp.symm)
        (htd.trans hkd.symm)
    have h2 : a.time_id ≤ target.time_id :=
      argmaxId_ub htarget a (timeKeyB_mem_dayRows ha hk)
    exact hid (Nat.le_antisymm h2 h1)

theorem closeRow_guard_preserves (now : DateTime) (w b : ℚ) (c : Option String)
    (tid : Nat) :
    ∀ a : TimeRow,
      ((if a.time_id = tid then closeRow now w b c a else a).time_id = a.time_id) ∧
      ((if a.time_id = tid then closeRow now w b c a else a).customer_id = a.customer_id) ∧
      ((if a.time_id = tid then closeRow now w b c a else a).project_id = a.project_id) ∧
      ((if a.time_id = tid then closeRow now w b c a else a).start_time = a.start_time) := by
  intro a
  by_cases h : a.time_id = tid <;> simp [h, closeRow]

theorem keyCountDay_close (s : DB) (now : DateTime) (w b : ℚ)
    (c : Option String) (tid : Nat) (cid pid : Int) (d : Date) :
    keyCountDay
      { s with time := s.time.map (fun r =>
          if r.time_id = tid then closeRow now w b c r else r) }
      cid pid d = keyCountDay s cid pid d := by
  rw [keyCountDay, keyCountDay]
  dsimp only
  refine countP_map_eq _ _ _ (fun a _ => ?_)
  obtain ⟨h1, h2, h3, h4⟩ := closeRow_guard_preserves now w b c tid a
  rw [timeKeyB, timeKeyB, h2, h3, h4]

theorem openCountDay_close_le (s : DB) (now : DateTime) (w b : ℚ)
    (c : Option String) (tid : Nat) (cid pid : Int) (d : Date) :
    openCountDay
      { s with time := s.time.map (fun r =>
          if r.time_id = tid then closeRow now w b c r else r) }
      cid pid d ≤ openCountDay s cid pid d := by
  rw [openCountDay, openCountDay]
  dsimp only
  refine countP_map_le _ _ _ (fun a hp => ?_)
  rw [Bool.and_eq_true] at hp
  obtain ⟨hpk, hpe⟩ := hp
  rw [decide_eq_true_eq] at hpe
  by_cases hcase : a.time_id = tid
  · rw [if_pos hcase] at hpe
    exact absurd hpe (by simp [closeRow])
  · rw [if_neg hcase] at hpk hpe
    rw [Bool.and_eq_true]
    exact ⟨hpk, decide_eq_true hpe⟩

/-! ## The inductive invariant of reachable states -/

theorem inv_empty : Inv emptyDB := by
  refine ⟨?_, ?_, ?_, ?_, ?_, ?_, ?_, ?_, ?_, ?_⟩ <;>
    simp [emptyDB, OpenMaxL, openCountDay, currentCount, openBonusCount]

theorem inv_projects_update (s : DB) (ps : List ProjectRow) (np : Int)
    (h : Inv s) : Inv { s with projects := ps, nextProjectId := np } :=
  ⟨h.timeIdLt, h.timeNodup, h.openMax, h.openDayLe, h.custIdPos, h.custIdLt,
   h.custNodup, h.currentLe, h.nextCustPos, h.openBonusLe⟩

theorem inv_insert_project (s : DB) (today : Date) (pn cn : String) (b : Bool)
    (h : Inv s) : Inv (insert_project s today pn cn b) :=
  inv_projects_update s _ _ h

theorem inv_disable_project (s : DB) (pid : Int) (h : Inv s) :
    Inv (__disable_customer_project s pid) :=
  ⟨h.timeIdLt, h.timeNodup, h.openMax, h.openDayLe, h.custIdPos, h.custIdLt,
   h.custNodup, h.currentLe, h.nextCustPos, h.openBonusLe⟩

theorem openBonusCount_insert_none (s : DB) (p : ℚ) (sd : Date) :
    openBonusCount (insert_bonus s p sd none) = 1 := by
  unfold insert_bonus openBonusCount
  dsimp only
  rw [List.countP_append]
  have h0 : (s.bonus.map (fun r =>
      if r.end_date.isNone then { r with end_date := some (dateSub1 sd) }
      else r)).countP (fun r => decide (r.end_date = none)) = 0 := by
    rw [List.countP_map, List.countP_eq_zero]
    intro a _
    simp only [Function.comp]
    intro hp
    rw [decide_eq_true_eq] at hp
    by_cases hc : a.end_date.isNone
    · rw [if_pos hc] at hp
      simp at hp
    · rw [if_neg hc] at hp
      rw [hp] at hc
      simp at hc
  rw [if_pos (show (none : Option Date).isNone = true from rfl)]
  rw [h0]
  rfl

theorem openBonusCount_insert_some (s : DB) (p : ℚ) (sd e : Date) :
    openBonusCount (insert_bonus s p sd (some e)) = openBonusCount s := by
  unfold insert_bonus openBonusCount
  dsimp only
  rw [List.countP_append]
  simp

theorem inv_insert_bonus (s : DB) (p : ℚ) (sd : Date) (ed : Option Date)
    (h : Inv s) : Inv (insert_bonus s p sd ed) := by
  refine ⟨h.timeIdLt, h.timeNodup, h.openMax, h.openDayLe, h.custIdPos,
    h.custIdLt, h.custNodup, h.currentLe, h.nextCustPos, ?_⟩
  rcases ed with _ | e
  · rw [openBonusCount_insert_none]
  · rw [openBonusCount_insert_some]
    exact h.openBonusLe

theorem inv_insert_customer (s : DB) (now : DateTime) (n : String) (sd : Date)
    (w : Int) (vf : Date) (h : Inv s) : Inv (insert_customer s now n sd w vf) := by
  have hfid : ∀ a : CustomerRow,
      ((fun r => if r.customer_name = n ∧ r.is_current = 1 then
        { r with is_current := 0, valid_to := some (dateSub1 sd),
                 updated_at := some now }
      else r) a).customer_id = a.customer_id := by
    intro a
    dsimp only
    by_cases hc : a.customer_name = n ∧ a.is_current = 1
    · rw [if_pos hc]
    · rw [if_neg hc]
  refine ⟨h.timeIdLt, h.timeNodup, h.openMax, h.openDayLe, ?_, ?_, ?_, ?_, ?_,
    h.openBonusLe⟩
  · -- custIdPos
    intro r hr
    unfold insert_customer at hr
    dsimp only at hr
    rcases List.mem_append.mp hr with hr1 | hr1
    · obtain ⟨a, ha, rfl⟩ := List.mem_map.mp hr1
      rw [hfid a]
      exact h.custIdPos a ha
    · rcases List.mem_singleton.mp hr1 with rfl
      exact h.nextCustPos
  · -- custIdLt
    intro r hr
    unfold insert_customer at hr ⊢
    dsimp only at hr ⊢
    rcases List.mem_append.mp hr with hr1 | hr1
    · obtain ⟨a, ha, rfl⟩ := List.mem_map.mp hr1
      rw [hfid a]
      have := h.custIdLt a ha
      omega
    · rcases List.mem_singleton.mp hr1 with rfl
      dsimp only
      omega
  · -- custNodup
    unfold insert_customer
    dsimp only
    rw [List.pairwise_append]
    refine ⟨?_, List.pairwise_singleton _ _, ?_⟩
    · rw [List.pairwise_map]
      refine h.custNodup.imp ?_
      intro a b hab
      rw [hfid a, hfid b]
      exact hab
    · intro a ha b hb
      obtain ⟨a0, ha0, rfl⟩ := List.mem_map.mp ha
      rcases List.mem_singleton.mp hb with rfl
      rw [hfid a0]
      dsimp only
      have := h.custIdLt a0 ha0
      omega
  · -- currentLe
    intro m
    unfold insert_customer currentCount
    dsimp only
    rw [List.countP_append]
    by_cases hm : n = m
    · subst hm
      have h0 : (s.customers.map (fun r =>
          if r.customer_name = n ∧ r.is_current = 1 then
            { r with is_current := 0, valid_to := some (dateSub1 sd),
                     updated_at := some now }
          else r)).countP
          (fun r => decide (r.customer_name = n ∧ r.is_current = 1)) = 0 := by
        rw [List.countP_map, List.countP_eq_zero]
        intro a _
        simp only [Function.comp]
        intro hp
        rw [decide_eq_true_eq] at hp
        by_cases hc : a.customer_name = n ∧ a.is_current = 1
        · rw [if_pos hc] at hp
          exact absurd hp.2 (by simp)
        · rw [if_neg hc] at hp
          exact hc hp
      rw [h0]
      simp
    · have h0 : (s.customers.map (fun r =>
          if r.customer_name = n ∧ r.is_current = 1 then
            { r with is_current := 0, valid_to := some (dateSub1 sd),
                     updated_at := some now }
          else r)).countP
          (fun r => decide (r.customer_name = m ∧ r.is_current = 1)) =
          s.customers.countP
            (fun r => decide (r.customer_name = m ∧ r.is_current = 1)) := by
        refine countP_map_eq _ _ _ (fun a _ => ?_)
        by_cases hc : a.customer_name = n ∧ a.is_current = 1
        · rw [if_pos hc]
          have hnm : ¬ (a.customer_name = m) := by
            rw [hc.1]; exact hm
          simp [hnm]
        · rw [if_neg hc]
      rw [h0]
      have hc := h.currentLe m
      unfold currentCount at hc
      simp only [List.countP_cons, List.countP_nil]
      rw [if_neg (by simp [hm])]
      omega
  · -- nextCustPos
    unfold insert_customer
    dsimp only
    have := h.nextCustPos
    omega

theorem inv_disable_customer (s : DB) (cn : String) (h : Inv s) :
    Inv (__disable_customer s cn) := by
  have hfid : ∀ a : CustomerRow,
      ((fun r => if r.customer_name = cn then { r with is_current := 0 }
        else r) a).customer_id = a.customer_id := by
    intro a
    dsimp only
    by_cases hc : a.customer_name = cn
    · rw [if_pos hc]
    · rw [if_neg hc]
  refine ⟨h.timeIdLt, h.timeNodup, h.openMax, h.openDayLe, ?_, ?_, ?_, ?_,
    h.nextCustPos, h.openBonusLe⟩
  · intro r hr
    unfold __disable_customer at hr
    dsimp only at hr
    obtain ⟨a, ha, rfl⟩ := List.mem_map.mp hr
    rw [hfid a]
    exact h.custIdPos a ha
  · intro r hr
    unfold __disable_customer at hr ⊢
    dsimp only at hr ⊢
    obtain ⟨a, ha, rfl⟩ := List.mem_map.mp hr
    rw [hfid a]
    exact h.custIdLt a ha
  · unfold __disable_customer
    dsimp only
    rw [List.pairwise_map]
    refine h.custNodup.imp ?_
    intro a b hab
    rw [hfid a, hfid b]
    exact hab
  · intro m
    unfold __disable_customer currentCount
    dsimp only
    have hle : (s.customers.map (fun r =>
        if r.customer_name = cn then { r with is_current := 0 } else r)).countP
        (fun r => decide (r.customer_name = m ∧ r.is_current = 1)) ≤
        s.customers.countP
          (fun r => decide (r.customer_name = m ∧ r.is_current = 1)) := by
      refine countP_map_le _ _ _ (fun a hp => ?_)
      rw [decide_eq_true_eq] at hp
      by_cases hc : a.customer_name = cn
      · rw [if_pos hc] at hp
        exact absurd hp.2 (by simp)
      · rw [if_neg hc] at hp
        exact decide_eq_true hp
    exact le_trans hle (h.currentLe m)

theorem inv_add_customer (s : DB) (now : DateTime) (cn : String) (sd : Date)
    (w : Int) (h : Inv s) : Inv (__add_customer s now cn sd w).1 := by
  unfold __add_customer
  dsimp only
  rcases hfind : s.customers.find? (fun r => decide (r.customer_name = cn))
    with _ | c0
  · rw [hfind]
    exact inv_insert_customer s now cn sd w sd h
  · rw [hfind]
    dsimp only
    by_cases h1 : 0 < ((s.customers.filter (fun r =>
        decide (r.customer_name = cn))).filter (fun r =>
        decide (r.is_current = 1))).length
    · rw [if_pos h1]
      exact inv_insert_customer s now cn sd w sd h
    · rw [if_neg h1]
      by_cases h2 : 0 < ((s.customers.filter (fun r =>
          decide (r.customer_name = cn))).filter (fun r =>
          decide (r.is_current = 0))).length
      · rw [if_pos h2]
        dsimp only
        have hc0mem : c0 ∈ s.customers := List.mem_of_find?_eq_some hfind
        have hc0name : c0.customer_name = cn := by
          have := List.find?_some hfind
          rwa [decide_eq_true_eq] at this
        have hnocur : ∀ a ∈ s.customers, a.customer_name = cn →
            ¬ (a.is_current = 1) := by
          intro a ha hname hcur
          have hmem : a ∈ (s.customers.filter (fun r =>
              decide (r.customer_name = cn))).filter (fun r =>
              decide (r.is_current = 1)) :=
            List.mem_filter.mpr
              ⟨List.mem_filter.mpr ⟨ha, decide_eq_true hname⟩,
               decide_eq_true hcur⟩
          exact h1 (List.length_pos.mpr (List.ne_nil_of_mem hmem))
        have hfid : ∀ a : CustomerRow,
            ((fun r => if r.customer_id = c0.customer_id then
              { r with is_current := 1 } else r) a).customer_id =
              a.customer_id := by
          intro a
          dsimp only
          by_cases hc : a.customer_id = c0.customer_id
          · rw [if_pos hc]
          · rw [if_neg hc]
        refine ⟨h.timeIdLt, h.timeNodup, h.openMax, h.openDayLe, ?_, ?_, ?_, ?_,
          h.nextCustPos, h.openBonusLe⟩
        · intro r hr
          dsimp only at hr
          obtain ⟨a, ha, rfl⟩ := List.mem_map.mp hr
          rw [hfid a]
          exact h.custIdPos a ha
        · intro r hr
          dsimp only at hr ⊢
          obtain ⟨a, ha, rfl⟩ := List.mem_map.mp hr
          rw [hfid a]
          exact h.custIdLt a ha
        · dsimp only
          rw [List.pairwise_map]
          refine h.custNodup.imp ?_
          intro a b hab
          rw [hfid a, hfid b]
          exact hab
        · intro m
          unfold currentCount
          dsimp only
          by_cases hm : cn = m
          · subst hm
            rw [List.countP_map]
            refine le_trans (List.countP_mono_left ?_)
              (countP_key_le_one (fun r => r.customer_id) c0.customer_id
                s.customers h.custNodup)
            intro a ha hp
            simp only [Function.comp] at hp
            by_cases hid : a.customer_id = c0.customer_id
            · exact decide_eq_true hid
            · rw [decide_eq_true_eq] at hp
              rw [if_neg hid] at hp
              exact absurd hp.2 (hnocur a ha hp.1)
          · have heq : (s.customers.map (fun r =>
                if r.customer_id = c0.customer_id then
                  { r with is_current := 1 } else r)).countP
                (fun r => decide (r.customer_name = m ∧ r.is_current = 1)) =
                s.customers.countP
                  (fun r => decide (r.customer_name = m ∧ r.is_current = 1)) := by
              refine countP_map_eq _ _ _ (fun a ha => ?_)
              by_cases hid : a.customer_id = c0.customer_id
              · have haeq : a = c0 :=
                  pairwise_key_inj (fun r => r.customer_id) s.customers
                    h.custNodup a ha c0 hc0mem hid
                have hname : ¬ (a.customer_name = m) := by
                  rw [haeq, hc0name]
                  exact hm
                rw [if_pos hid]
                simp [hname]
              · rw [if_neg hid]
            rw [heq]
            exact h.currentLe m
      · rw [if_neg h2]
        exact h

theorem inv_add_customer_project (s : DB) (today : Date) (pn cn : String)
    (h : Inv s) : Inv (__add_customer_project s today pn cn).1 := by
  unfold __add_customer_project
  dsimp only
  rcases hfind : s.customers.find? (fun r => decide (r.customer_name = cn))
    with _ | c0
  · rw [hfind]
    exact h
  · rw [hfind]
    dsimp only
    by_cases h1 : 0 < (((s.projects.filter (fun p =>
        decide (p.project_name = pn ∧ p.customer_id = c0.customer_id))).filter
        (fun p => decide (p.is_current = 1)))).length
    · rw [if_pos h1]
      exact h
    · rw [if_neg h1]
      by_cases h2 : 0 < (((s.projects.filter (fun p =>
          decide (p.project_name = pn ∧ p.customer_id = c0.customer_id))).filter
          (fun p => decide (p.is_current = 0)))).length
      · rw [if_pos h2]
        rcases hhead : (s.projects.filter (fun p =>
            decide (p.project_name = pn ∧
              p.customer_id = c0.customer_id))).head? with _ | p0
        · rw [hhead]
          exact h
        · rw [hhead]
          exact ⟨h.timeIdLt, h.timeNodup, h.openMax, h.openDayLe, h.custIdPos,
            h.custIdLt, h.custNodup, h.currentLe, h.nextCustPos, h.openBonusLe⟩
      · rw [if_neg h2]
        exact inv_insert_project s today pn cn true h

theorem inv_update_value (s : DB) (v : Nat) (h : Inv s) :
    Inv (__update_value_id s v) := by
  unfold __update_value_id
  rcases hfind : s.time.find? (fun r => decide (r.time_id = v)) with _ | row
  · rw [hfind]
    exact h
  · rw [hfind]
    dsimp only
    have hpres : ∀ a : TimeRow,
        ((fun r => if r.time_id = v then
          (match row.end_time with
           | some e =>
             { r with total_time := some ((julianday e - julianday r.start_time) * 24),
                      cost := some ((julianday e - julianday r.start_time) * 24 *
                        (wageOfId s row.customer_id : ℚ)),
                      bonus := some (updateValueBonus s row.start_time.date),
                      wage := some ((julianday e - julianday r.start_time) * 24 *
                        (wageOfId s row.customer_id : ℚ) *
                        updateValueBonus s row.start_time.date) }
           | none =>
             { r with total_time := none, cost := none,
                      bonus := some (updateValueBonus s row.start_time.date),
                      wage := none })
          else r) a).time_id = a.time_id ∧
        ((fun r => if r.time_id = v then
          (match row.end_time with
           | some e =>
             { r with total_time := some ((julianday e - julianday r.start_time) * 24),
                      cost := some ((julianday e - julianday r.start_time) * 24 *
                        (wageOfId s row.customer_id : ℚ)),
                      bonus := some (updateValueBonus s row.start_time.date),
                      wage := some ((julianday e - julianday r.start_time) * 24 *
                        (wageOfId s row.customer_id : ℚ) *
                        updateValueBonus s row.start_time.date) }
           | none =>
             { r with total_time := none, cost := none,
                      bonus := some (updateValueBonus s row.start_time.date),
                      wage := none })
          else r) a).customer_id = a.customer_id ∧
        ((fun r => if r.time_id = v then
          (match row.end_time with
           | some e =>
             { r with total_time := some ((julianday e - julianday r.start_time) * 24),
                      cost := some ((julianday e - julianday r.start_time) * 24 *
                        (wageOfId s row.customer_id : ℚ)),
                      bonus := some (updateValueBonus s row.start_time.date),
                      wage := some ((julianday e - julianday r.start_time) * 24 *
                        (wageOfId s row.customer_id : ℚ) *
                        updateValueBonus s row.start_time.date) }
           | none =>
             { r with total_time := none, cost := none,
                      bonus := some (updateValueBonus s row.start_time.date),
                      wage := none })
          else r) a).project_id = a.project_id ∧
        ((fun r => if r.time_id = v then
          (match row.end_time with
           | some e =>
             { r with total_time := some ((julianday e - julianday r.start_time) * 24),
                      cost := some ((julianday e - julianday r.start_time) * 24 *
                        (wageOfId s row.customer_id : ℚ)),
                      bonus := some (updateValueBonus s row.start_time.date),
                      wage := some ((julianday e - julianday r.start_time) * 24 *
                        (wageOfId s row.customer_id : ℚ) *
                        updateValueBonus s row.start_time.date) }
           | none =>
             { r with total_time := none, cost := none,
                      bonus := some (updateValueBonus s row.start_time.date),
                      wage := none })
          else r) a).start_time = a.start_time ∧
        ((fun r => if r.time_id = v then
          (match row.end_time with
           | some e =>
             { r with total_time := some ((julianday e - julianday r.start_time) * 24),
                      cost := some ((julianday e - julianday r.start_time) * 24 *
                        (wageOfId s row.customer_id : ℚ)),
                      bonus := some (updateValueBonus s row.start_time.date),
                      wage := some ((julianday e - julianday r.start_time) * 24 *
                        (wageOfId s row.customer_id : ℚ) *
                        updateValueBonus s row.start_time.date) }
           | none =>
             { r with total_time := none, cost := none,
                      bonus := some (updateValueBonus s row.start_time.date),
                      wage := none })
          else r) a).end_time = a.end_time := by
      intro a
      dsimp only
      by_cases hc : a.time_id = v
      · rcases row.end_time with _ | e
        · rw [if_pos hc]
          exact ⟨rfl, rfl, rfl, rfl, rfl⟩
        · rw [if_pos hc]
          exact ⟨rfl, rfl, rfl, rfl, rfl⟩
      · rw [if_neg hc]
        exact ⟨rfl, rfl, rfl, rfl, rfl⟩
    refine ⟨?_, ?_, ?_, ?_, h.custIdPos, h.custIdLt, h.custNodup, h.currentLe,
      h.nextCustPos, h.openBonusLe⟩
    · intro r hr
      dsimp only at hr
      obtain ⟨a, ha, rfl⟩ := List.mem_map.mp hr
      rw [(hpres a).1]
      exact h.timeIdLt a ha
    · dsimp only
      rw [List.pairwise_map]
      refine h.timeNodup.imp ?_
      intro a b hab
      rw [(hpres a).1, (hpres b).1]
      exact hab
    · refine openMaxL_map s.time _ (fun a => (hpres a).1)
        (fun a => (hpres a).2.1) (fun a => (hpres a).2.2.1)
        (fun a => by rw [(hpres a).2.2.2.1]) ?_ h.openMax
      intro a hne
      rw [(hpres a).2.2.2.2] at hne
      exact hne
    · intro c2 p2 d2
      rw [openCountDay]
      dsimp only
      refine le_trans (le_of_eq (countP_map_eq _ _ _ (fun a ha => ?_)))
        (h.openDayLe c2 p2 d2)
      obtain ⟨e1, e2, e3, e4, e5⟩ := hpres a
      simp only [timeKeyB, e2, e3, e4, e5]

theorem inv_insert_time_row (s : DB) (now : DateTime) (cn pn : String)
    (c : Option String) (h : Inv s) : Inv (insert_time_row s now cn pn c) := by
  by_cases habort : __get_customer_id s cn now.date = -1 ∨
      __get_project_id s pn = -1
  · rw [insert_time_row_abort_resolution s now cn pn c habort]
    exact h
  · push_neg at habort
    obtain ⟨hc1, hp1⟩ := habort
    rcases hdk : dateKeyLookup now.date with _ | dk
    · rw [insert_time_row_abort_datekey s now cn pn c hc1 hp1 hdk]
      exact h
    · by_cases hopen : openCountDay s (__get_customer_id s cn now.date)
        (__get_project_id s pn) now.date = 0
      · rw [insert_time_row_insert_eq s now cn pn c dk hc1 hp1 hdk hopen]
        refine ⟨?_, ?_, ?_, ?_, h.custIdPos, h.custIdLt, h.custNodup,
          h.currentLe, h.nextCustPos, h.openBonusLe⟩
        · intro r hr
          dsimp only at hr ⊢
          rcases List.mem_append.mp hr with hr1 | hr1
          · have := h.timeIdLt r hr1
            omega
          · rcases List.mem_singleton.mp hr1 with rfl
            dsimp only
            omega
        · dsimp only
          rw [List.pairwise_append]
          refine ⟨h.timeNodup, List.pairwise_singleton _ _, ?_⟩
          intro a ha b hb
          rcases List.mem_singleton.mp hb with rfl
          have := h.timeIdLt a ha
          dsimp only
          omega
        · intro r hr hre q hq hqc hqp hqd
          dsimp only at hr hq
          rcases List.mem_append.mp hr with hr1 | hr1
          · rcases List.mem_append.mp hq with hq1 | hq1
            · exact h.openMax r hr1 hre q hq1 hqc hqp hqd
            · rcases List.mem_singleton.mp hq1 with rfl
              exfalso
              have hrk : timeKeyB (__get_customer_id s cn now.date)
                  (__get_project_id s pn) now.date r = true := by
                rw [timeKeyB]
                exact decide_eq_true ⟨hqc.symm, hqp.symm, hqd.symm⟩
              rw [openCountDay, List.countP_eq_zero] at hopen
              exact hopen r hr1
                (by rw [Bool.and_eq_true]; exact ⟨hrk, decide_eq_true hre⟩)
          · rcases List.mem_singleton.mp hr1 with rfl
            rcases List.mem_append.mp hq with hq1 | hq1
            · have := h.timeIdLt q hq1
              dsimp only
              omega
            · rcases List.mem_singleton.mp hq1 with rfl
              exact le_refl _
        · intro c2 p2 d2
          rw [openCountDay]
          dsimp only
          rw [List.countP_append]
          rcases hmatch : (timeKeyB c2 p2 d2
              (⟨s.nextTimeId, __get_customer_id s cn now.date, cn,
                __get_project_id s pn, pn, now, none, none, dk,
                none, none, none, none⟩ : TimeRow) &&
              decide ((⟨s.nextTimeId, __get_customer_id s cn now.date, cn,
                __get_project_id s pn, pn, now, none, none, dk,
                none, none, none, none⟩ : TimeRow).end_time = none)) with _ | _
          · have hm2 := hmatch
            simp only [Bool.and_eq_false_iff, decide_eq_false_iff_not] at hm2
            have hm3 : timeKeyB c2 p2 d2
                (⟨s.nextTimeId, __get_customer_id s cn now.date, cn,
                  __get_project_id s pn, pn, now, none, none, dk,
                  none, none, none, none⟩ : TimeRow) = false := by
              rcases hm2 with hm2 | hm2
              · exact hm2
              · exact absurd trivial hm2
            have hz : List.countP (fun r => timeKeyB c2 p2 d2 r &&
                decide (r.end_time = none))
                [(⟨s.nextTimeId, __get_customer_id s cn now.date, cn,
                  __get_project_id s pn, pn, now, none, none, dk,
                  none, none, none, none⟩ : TimeRow)] = 0 := by
              simp [List.countP_cons, List.countP_nil, hm3]
            rw [hz]
            have := h.openDayLe c2 p2 d2
            rw [openCountDay] at this
            omega
          · have hk := hmatch
            rw [Bool.and_eq_true] at hk
            have hk1 := hk.1
            rw [timeKeyB, decide_eq_true_eq] at hk1
            obtain ⟨e1, e2, e3⟩ := hk1
            dsimp only at e1 e2 e3
            have h0 : openCountDay s c2 p2 d2 = 0 := by
              rw [← e1, ← e2, ← e3]
              exact hopen
            rw [openCountDay] at h0
            rw [h0]
            have h1 : List.countP (fun r => timeKeyB c2 p2 d2 r &&
                decide (r.end_time = none))
                [(⟨s.nextTimeId, __get_customer_id s cn now.date, cn,
                  __get_project_id s pn, pn, now, none, none, dk,
                  none, none, none, none⟩ : TimeRow)] = 1 := by
              simp [List.countP_cons, List.countP_nil, hk.1]
            rw [h1]
      · have hpos : 0 < openCountDay s (__get_customer_id s cn now.date)
            (__get_project_id s pn) now.date := Nat.pos_of_ne_zero hopen
        have hnonnil : dayRows s (__get_customer_id s cn now.date)
            (__get_project_id s pn) now.date ≠ [] := by
          intro hnil
          rw [openCountDay_eq_countP_dayRows, hnil] at hpos
          simp at hpos
        obtain ⟨target, htarget⟩ := argmaxId_isSome hnonnil
        rw [insert_time_row_close_eq s now cn pn c dk target hc1 hp1 hdk hpos
          htarget]
        refine ⟨?_, ?_, ?_, ?_, h.custIdPos, h.custIdLt, h.custNodup,
          h.currentLe, h.nextCustPos, h.openBonusLe⟩
        · intro r hr
          dsimp only at hr ⊢
          obtain ⟨a, ha, rfl⟩ := List.mem_map.mp hr
          rw [(closeRow_guard_preserves now (wageOfId s
            (__get_customer_id s cn now.date) : ℚ)
            (bonusOfDate s now.date) c target.time_id a).1]
          exact h.timeIdLt a ha
        · dsimp only
          rw [List.pairwise_map]
          refine h.timeNodup.imp ?_
          intro a b hab
          rw [(closeRow_guard_preserves now _ _ c target.time_id a).1,
            (closeRow_guard_preserves now _ _ c target.time_id b).1]
          exact hab
        · refine openMaxL_map s.time _
            (fun a => (closeRow_guard_preserves now _ _ c target.time_id a).1)
            (fun a => (closeRow_guard_preserves now _ _ c target.time_id a).2.1)
            (fun a => (closeRow_guard_preserves now _ _ c target.time_id a).2.2.1)
            (fun a => by
              rw [(closeRow_guard_preserves now _ _ c target.time_id a).2.2.2])
            ?_ h.openMax
          intro a hne
          by_cases hc2 : a.time_id = target.time_id
          · rw [if_pos hc2] at hne
            simp [closeRow] at hne
          · rw [if_neg hc2] at hne
            exact hne
        · intro c2 p2 d2
          exact le_trans (openCountDay_close_le s now _ _ c target.time_id
            c2 p2 d2) (h.openDayLe c2 p2 d2)

/-- Every reachable state satisfies the invariant. -/
theorem reach_inv {s : DB} (h : Reachable s) : Inv s := by
  induction h with
  | empty => exact inv_empty
  | insert_customer_step s now n sd w vf _ ih =>
    exact inv_insert_customer s now n sd w vf ih
  | insert_time_row_step s now cn pn c _ ih =>
    exact inv_insert_time_row s now cn pn c ih
  | insert_project_step s today pn cn b _ ih =>
    exact inv_insert_project s today pn cn b ih
  | insert_bonus_step s p sd ed _ ih => exact inv_insert_bonus s p sd ed ih
  | add_customer_project_step s today pn cn _ ih =>
    exact inv_add_customer_project s today pn cn ih
  | disable_project_step s pid _ ih => exact inv_disable_project s pid ih
  | add_customer_step s now cn sd w _ ih => exact inv_add_customer s now cn sd w ih
  | disable_customer_step s cn _ ih => exact inv_disable_customer s cn ih
  | update_value_step s v _ ih => exact inv_update_value s v ih

/-! ## Lookup lemmas for closed states -/

theorem find?_id_map (l : List TimeRow) (f : TimeRow → TimeRow) (tid : Nat)
    (hf : ∀ a, (f a).time_id = a.time_id) :
    (l.map f).find? (fun r => decide (r.time_id = tid)) =
      (l.find? (fun r => decide (r.time_id = tid))).map f := by
  induction l with
  | nil => rfl
  | cons a t ih =>
    simp only [List.map_cons]
    by_cases hc : a.time_id = tid
    · have h1 : List.find? (fun r => decide (r.time_id = tid))
          (f a :: List.map f t) = some (f a) :=
        List.find?_cons_of_pos _ (decide_eq_true ((hf a).trans hc))
      have h2 : List.find? (fun r => decide (r.time_id = tid)) (a :: t) =
          some a :=
        List.find?_cons_of_pos _ (decide_eq_true hc)
      rw [h1, h2]
      rfl
    · have hfneg : ¬ ((f a).time_id = tid) := by
        rw [hf a]
        exact hc
      have h1 : List.find? (fun r => decide (r.time_id = tid))
          (f a :: List.map f t) =
          List.find? (fun r => decide (r.time_id = tid)) (List.map f t) :=
        List.find?_cons_of_neg _ (fun hx => hfneg (of_decide_eq_true hx))
      have h2 : List.find? (fun r => decide (r.time_id = tid)) (a :: t) =
          List.find? (fun r => decide (r.time_id = tid)) t :=
        List.find?_cons_of_neg _ (fun hx => hc (of_decide_eq_true hx))
      rw [h1, h2]
      exact ih

theorem find?_id_self (l : List TimeRow) (target : TimeRow)
    (hmem : target ∈ l)
    (hnodup : l.Pairwise (fun a b => a.time_id ≠ b.time_id)) :
    l.find? (fun r => decide (r.time_id = target.time_id)) = some target := by
  induction l with
  | nil => cases hmem
  | cons a t ih =>
    rw [List.pairwise_cons] at hnodup
    rcases List.mem_cons.mp hmem with rfl | hm
    · exact List.find?_cons_of_pos _ (decide_eq_true rfl)
    · have hne : ¬ (a.time_id = target.time_id) := hnodup.1 target hm
      rw [List.find?_cons_of_neg _ (by simpa using hne)]
      exact ih hm hnodup.2

/-! ## Reachability of the concrete scenario states -/

theorem reach_exBase : Reachable exBase := by
  unfold exBase
  apply Reachable.insert_bonus_step
  apply Reachable.insert_project_step
  apply Reachable.insert_customer_step
  exact Reachable.empty

theorem reach_exOpen : Reachable exOpen := by
  unfold exOpen
  exact Reachable.insert_time_row_step _ _ _ _ _ reach_exBase

theorem reach_exClosed : Reachable exClosed := by
  unfold exClosed
  exact Reachable.insert_time_row_step _ _ _ _ _ reach_exOpen

theorem reach_exTriple : Reachable exTriple := by
  unfold exTriple
  exact Reachable.insert_time_row_step _ _ _ _ _ reach_exClosed

theorem reach_exCross2 : Reachable exCross2 := by
  unfold exCross2 exCross1
  exact Reachable.insert_time_row_step _ _ _ _ _
    (Reachable.insert_time_row_step _ _ _ _ _ reach_exBase)

theorem reach_exProj1 : Reachable exProj1 := by
  unfold exProj1 exVer2 exVer1
  exact Reachable.add_customer_project_step _ _ _ _
    (Reachable.add_customer_step _ _ _ _ _
      (Reachable.add_customer_step _ _ _ _ _ Reachable.empty))

theorem reach_exDisabled : Reachable exDisabled := by
  unfold exDisabled
  exact Reachable.disable_project_step _ _ reach_exBase

/-! ## Claim theorems -/

/-- Claim C6, counterexample: the claim that every null-upper-bound
comparison site coalesces to one and the same far-future sentinel is false —
the startup bonus validation (`__validate_db`) coalesces to 2999-12-31 while
the customer/bonus resolution sites coalesce to 2099-12-31; concretely, on
2150-01-01 an open-ended bonus from 2024 is dead to ledger resolution
(`bonusOfDate` = 0 fallback) yet alive to the startup check. -/
theorem sentinel_not_consistent_counterexample :
    validateSentinel ≠ customerSentinel ∧
    bonusOfDate exBase ⟨2150, 1, 1⟩ = 0 ∧
    validBonusCount exBase ⟨2150, 1, 1⟩ = 1 := by
  refine ⟨by decide, by rfl, by decide⟩

/-- Claim C6, amended: the four resolution/ledger/reporting comparison sites
of the tkinter source (`__get_customer_id`, the bonus lookup of
`insert_time_row`, the reporting join of `__get_value`, and
`__update_value_id`) all coalesce a null upper bound to the same sentinel
2099-12-31, but the startup bonus validation `__validate_db` uses the
different sentinel 2999-12-31. -/
theorem sentinel_sites_values :
    customerSentinel = ⟨2099, 12, 31⟩ ∧
    bonusCloseSentinel = customerSentinel ∧
    reportSentinel = customerSentinel ∧
    updateValueSentinel = customerSentinel ∧
    validateSentinel = ⟨2999, 12, 31⟩ ∧
    validateSentinel ≠ customerSentinel := by
  refine ⟨rfl, rfl, rfl, rfl, rfl, by decide⟩

/-- Claim C10: `insert_bonus` called with a non-null `end_date` modifies no
existing bonus row — the state change is exactly the append of the new
closed row (so any open-ended row keeps its null `end_date`). -/
theorem insert_bonus_with_end_date_frame (s : DB) (p : ℚ) (sd e : Date) :
    insert_bonus s p sd (some e) =
      { s with bonus := s.bonus ++ [⟨s.nextBonusId, p, sd, some e⟩],
               nextBonusId := s.nextBonusId + 1 } := by
  unfold insert_bonus
  dsimp only
  rw [if_neg (by simp)]

/-- Claim C3: rate resolution is total — for every reachable state, customer
name and date (including dates before any customer version existed), when no
customer-version interval covers the date the id lookup returns the `-1`
fallback and the composed wage lookup returns wage 0, and when no bonus
interval covers the date the bonus lookup returns 0; no case is left
undefined. -/
theorem resolve_rate_total_with_zero_fallback (s : DB) (name : String)
    (d : Date) (hreach : Reachable s)
    (hcust : ∀ r ∈ s.customers, r.customer_name = name →
      ¬ (dateLE r.valid_from d = true ∧
         dateLE d (r.valid_to.getD customerSentinel) = true))
    (hbonus : ∀ b ∈ s.bonus,
      ¬ (dateLE b.start_date d = true ∧
         dateLE d (b.end_date.getD bonusCloseSentinel) = true)) :
    __get_customer_id s name d = -1 ∧ resolveRate s name d = (0, 0) := by
  have hid : __get_customer_id s name d = -1 := by
    unfold __get_customer_id
    have hf : s.customers.find? (fun r => decide (r.customer_name = name ∧
        dateLE r.valid_from d = true ∧
        dateLE d (r.valid_to.getD customerSentinel) = true)) = none := by
      rw [List.find?_eq_none]
      intro r hr hp
      have hp2 := of_decide_eq_true hp
      exact hcust r hr hp2.1 ⟨hp2.2.1, hp2.2.2⟩
    rw [hf]
  have hwage : wageOfId s (-1) = 0 := by
    unfold wageOfId
    have hf : s.customers.find? (fun r => decide (r.customer_id = -1)) =
        none := by
      rw [List.find?_eq_none]
      intro r hr hp
      have hp2 := of_decide_eq_true hp
      have hpos := (reach_inv hreach).custIdPos r hr
      omega
    rw [hf]
  have hbon : bonusOfDate s d = 0 := by
    unfold bonusOfDate
    have hf : s.bonus.find? (fun r => decide (dateLE r.start_date d = true ∧
        dateLE d (r.end_date.getD bonusCloseSentinel) = true)) = none := by
      rw [List.find?_eq_none]
      intro b hb hp
      have hp2 := of_decide_eq_true hp
      exact hbonus b hb ⟨hp2.1, hp2.2⟩
    rw [hf]
  refine ⟨hid, ?_⟩
  unfold resolveRate
  rw [hid, hwage, hbon]

/-- Claim C3, witness: on the concrete state, resolving for a date (2020)
before any version or bonus interval yields the `-1` id and the (0, 0)
zero-rate fallback. -/
theorem resolve_rate_total_witness :
    __get_customer_id exBase "Acme" ⟨2020, 5, 5⟩ = -1 ∧
    resolveRate exBase "Acme" ⟨2020, 5, 5⟩ = (0, 0) :=
  resolve_rate_total_with_zero_fallback exBase "Acme" ⟨2020, 5, 5⟩
    reach_exBase (by decide) (by decide)

/-- Claim C5: in every reachable state at most one bonus row is open-ended,
and `insert_bonus` with no `end_date` first sets `end_date = start - 1 day`
on every open-ended row and then appends the new open row, leaving exactly
one open row — in particular two insertions with the same start date leave
one open row. -/
theorem insert_bonus_closes_open_rows (s : DB) (hreach : Reachable s) :
    openBonusCount s ≤ 1 ∧
    ∀ (p : ℚ) (sd : Date),
      (insert_bonus s p sd none).bonus =
        (s.bonus.map (fun r =>
          if r.end_date.isNone then { r with end_date := some (dateSub1 sd) }
          else r)) ++ [⟨s.nextBonusId, p, sd, none⟩] ∧
      openBonusCount (insert_bonus s p sd none) = 1 := by
  refine ⟨(reach_inv hreach).openBonusLe,
    fun p sd => ⟨?_, openBonusCount_insert_none s p sd⟩⟩
  unfold insert_bonus
  dsimp only
  rw [if_pos (show (none : Option Date).isNone = true from rfl)]

/-- Claim C5, witness: inserting two open-ended bonuses with the same start
date leaves exactly one open-ended row. -/
theorem insert_bonus_closes_open_rows_witness :
    openBonusCount (insert_bonus emptyDB (1/4) exDate none) ≤ 1 ∧
    openBonusCount (insert_bonus (insert_bonus emptyDB (1/4) exDate none)
      (1/2) exDate none) = 1 := by
  have h := insert_bonus_closes_open_rows
    (insert_bonus emptyDB (1/4) exDate none)
    (Reachable.insert_bonus_step _ _ _ _ Reachable.empty)
  exact ⟨h.1, (h.2 (1/2) exDate).2⟩

/-- Claim C9 (dispatcher modelled from the spec, `database.py` not in src/):
the worker executes the queue strictly in submission order — processing a
concatenation equals processing the first part and then the second from the
resulting store, responses arrive in submission order and none is dropped —
and a read submitted after a write observes the write's effect: a bonus
count read queued right after an open-ended bonus insert always answers 1. -/
theorem process_queue_fifo_read_your_writes :
    (∀ (s : DB) (q1 q2 : List DbTask),
      process_queue s (q1 ++ q2) =
        ((process_queue (process_queue s q1).1 q2).1,
         (process_queue s q1).2 ++ (process_queue (process_queue s q1).1 q2).2)) ∧
    (∀ (s : DB) (q : List DbTask), (process_queue s q).2.length = q.length) ∧
    (∀ (s : DB) (pre : List DbTask) (p : ℚ) (sd : Date),
      (process_queue s (pre ++ [DbTask.insertBonusT p sd none,
        DbTask.readOpenBonusCountT])).2.getLast? = some (some 1)) := by
  have happ : ∀ (q1 : List DbTask) (s : DB) (q2 : List DbTask),
      process_queue s (q1 ++ q2) =
        ((process_queue (process_queue s q1).1 q2).1,
         (process_queue s q1).2 ++
           (process_queue (process_queue s q1).1 q2).2) := by
    intro q1
    induction q1 with
    | nil => intro s q2; simp [process_queue]
    | cons t rest ih =>
      intro s q2
      simp only [List.cons_append, process_queue, List.append_eq]
      rw [ih (execTask s t).1 q2]
  have hlen : ∀ (q : List DbTask) (s : DB),
      (process_queue s q).2.length = q.length := by
    intro q
    induction q with
    | nil => intro s; rfl
    | cons t rest ih =>
      intro s
      simp only [process_queue, List.length_cons]
      rw [ih (execTask s t).1]
  refine ⟨fun s q1 q2 => happ q1 s q2, fun s q => hlen q s, ?_⟩
  intro s pre p sd
  rw [happ pre s [DbTask.insertBonusT p sd none, DbTask.readOpenBonusCountT]]
  have hblock : (process_queue (process_queue s pre).1
      [DbTask.insertBonusT p sd none, DbTask.readOpenBonusCountT]).2 =
      [none, some (openBonusCount
        (insert_bonus (process_queue s pre).1 p sd none))] := by
    simp [process_queue, execTask]
  dsimp only
  rw [hblock, openBonusCount_insert_none]
  rw [List.getLast?_append]
  rfl

theorem currentCount_insert_customer_self (s : DB) (now : DateTime)
    (n : String) (sd : Date) (w : Int) (vf : Date) :
    currentCount (insert_customer s now n sd w vf) n = 1 := by
  unfold insert_customer currentCount
  dsimp only
  rw [List.countP_append]
  have h0 : (s.customers.map (fun r =>
      if r.customer_name = n ∧ r.is_current = 1 then
        { r with is_current := 0, valid_to := some (dateSub1 sd),
                 updated_at := some now }
      else r)).countP
      (fun r => decide (r.customer_name = n ∧ r.is_current = 1)) = 0 := by
    rw [List.countP_map, List.countP_eq_zero]
    intro a _
    simp only [Function.comp]
    intro hp
    rw [decide_eq_true_eq] at hp
    by_cases hc : a.customer_name = n ∧ a.is_current = 1
    · rw [if_pos hc] at hp
      exact absurd hp.2 (by simp)
    · rw [if_neg hc] at hp
      exact hc hp
  rw [h0]
  simp

/-- Claim C4, counterexample: the claim says `insert_customer` sets the
closed row's `valid_to` to the day before the new row's `valid_from`; the
source uses `start_date - 1 day` instead, so a call with
`valid_from ≠ start_date` (the signature allows it) refutes the claim:
closing for a new version with `start_date` 2024-02-01 and `valid_from`
2024-03-01 writes `valid_to` 2024-01-31, not 2024-02-29. -/
theorem insert_customer_valid_to_counterexample :
    ((insert_customer
        (insert_customer emptyDB (exDT 8) "Acme" exDate 100 exDate)
        (exDT 9) "Acme" ⟨2024, 2, 1⟩ 120 ⟨2024, 3, 1⟩).customers.find?
      (fun r => r.customer_id = 1)).map (fun r => r.valid_to) =
      some (some ⟨2024, 1, 31⟩) ∧
    dateSub1 ⟨2024, 3, 1⟩ = ⟨2024, 2, 29⟩ ∧
    (⟨2024, 1, 31⟩ : Date) ≠ ⟨2024, 2, 29⟩ := by
  refine ⟨by decide, by decide, by decide⟩

/-- Claim C4, amended: in every reachable state each customer-name lineage
has at most one row with `is_current = 1` and `valid_to` null (indeed at
most one current row at all); `insert_customer` closes every prior current
row of the name — exactly the one row when the invariant holds — setting its
`valid_to` to the day before the new row's *start_date* (which equals
`valid_from` at every call site in the program) and `is_current` to 0, and
appends the new open current version, all in one atomic transition of the
model, after which the name has exactly one current row. -/
theorem insert_customer_versioning (s : DB) (hreach : Reachable s) :
    (∀ n, currentOpenCount s n ≤ 1) ∧
    (∀ (now : DateTime) (n : String) (sd : Date) (w : Int) (vf : Date),
      (insert_customer s now n sd w vf).customers =
        (s.customers.map (fun r =>
          if r.customer_name = n ∧ r.is_current = 1 then
            { r with is_current := 0, valid_to := some (dateSub1 sd),
                     updated_at := some now }
          else r)) ++
        [⟨s.nextCustomerId, n, sd, w, vf, none, 1, some now, none⟩] ∧
      currentCount (insert_customer s now n sd w vf) n = 1) := by
  refine ⟨?_, fun now n sd w vf =>
    ⟨rfl, currentCount_insert_customer_self s now n sd w vf⟩⟩
  intro n
  refine le_trans ?_ ((reach_inv hreach).currentLe n)
  unfold currentOpenCount currentCount
  refine List.countP_mono_left (fun r _ hp => ?_)
  have hp2 := of_decide_eq_true hp
  exact decide_eq_true ⟨hp2.1, hp2.2.1⟩

/-- Claim C4, witness: on the concrete state a wage update leaves exactly
one current row for the lineage, and the invariant bound holds there. -/
theorem insert_customer_versioning_witness :
    currentOpenCount exBase "Acme" ≤ 1 ∧
    currentCount (insert_customer exBase (exDT 9) "Acme" ⟨2024, 2, 1⟩ 120
      ⟨2024, 2, 1⟩) "Acme" = 1 := by
  have h := insert_customer_versioning exBase reach_exBase
  exact ⟨h.1 "Acme", (h.2 (exDT 9) "Acme" ⟨2024, 2, 1⟩ 120 ⟨2024, 2, 1⟩).2⟩

/-- Claim C8, counterexample: for a customer with two temporal versions, the
duplicate check of `__add_customer_project` uses the *first* table row's id
(version 1) while the stored project row references version 2's id, so
adding the same project name again is accepted and a duplicate current row
is created — refuting the claim that the add is rejected or reuses the
existing row. -/
theorem add_customer_project_duplicate_counterexample :
    Reachable exProj1 ∧
    exProj1.projects = [⟨1, 2, "Web", 1⟩] ∧
    __get_customer_id exProj1 "Acme" ⟨2024, 2, 1⟩ = 2 ∧
    (__add_customer_project exProj1 ⟨2024, 2, 1⟩ "Web" "Acme").2.1 = true ∧
    (__add_customer_project exProj1 ⟨2024, 2, 1⟩ "Web" "Acme").1.projects =
      [⟨1, 2, "Web", 1⟩, ⟨2, 2, "Web", 1⟩] := by
  refine ⟨reach_exProj1, by decide, by decide, by decide, by decide⟩

/-- Claim C8, amended: the duplicate check is keyed on the customer's first
table row's `customer_id`; whenever the existing project row references that
id (in particular whenever the customer has a single version), a duplicate
add is impossible: if a current row with the name exists for that id the add
is rejected with an error result, and if only a disabled row exists the
first matching row is reactivated in place (`is_current := 1`) with no new
row inserted.  With a multi-version customer whose project row references a
later version's id the check misses and a duplicate row is created (see the
counterexample). -/
theorem __add_customer_project_checks (s : DB) (today : Date)
    (pn cn : String) (c0 : CustomerRow)
    (hfind : s.customers.find? (fun r => decide (r.customer_name = cn)) =
      some c0) :
    ((∃ p ∈ s.projects, p.project_name = pn ∧
        p.customer_id = c0.customer_id ∧ p.is_current = 1) →
      __add_customer_project s today pn cn =
        (s, false, "Project already exists in database!")) ∧
    (∀ p0 : ProjectRow,
      (∀ p ∈ s.projects, p.project_name = pn →
        p.customer_id = c0.customer_id → ¬ p.is_current = 1) →
      s.projects.find? (fun p => decide (p.project_name = pn ∧
        p.customer_id = c0.customer_id)) = some p0 →
      p0.is_current = 0 →
      __add_customer_project s today pn cn =
        ({ s with projects := s.projects.map (fun p =>
            if p.project_id = p0.project_id then { p with is_current := 1 }
            else p) },
         true, "Project has been reactivated!")) := by
  unfold __add_customer_project
  rw [hfind]
  dsimp only
  constructor
  · rintro ⟨p, hp, hn, hc, hcur⟩
    have hmem : p ∈ (s.projects.filter (fun q => decide (q.project_name = pn ∧
        q.customer_id = c0.customer_id))).filter
        (fun q => decide (q.is_current = 1)) :=
      List.mem_filter.mpr
        ⟨List.mem_filter.mpr ⟨hp, decide_eq_true ⟨hn, hc⟩⟩,
         decide_eq_true hcur⟩
    rw [if_pos (List.length_pos.mpr (List.ne_nil_of_mem hmem))]
  · intro p0 hnone hfindp hp0
    have h1 : ¬ 0 < ((s.projects.filter (fun q =>
        decide (q.project_name = pn ∧
          q.customer_id = c0.customer_id))).filter
        (fun q => decide (q.is_current = 1))).length := by
      intro hpos
      obtain ⟨p, hp⟩ := List.exists_mem_of_length_pos hpos
      have h2 := List.mem_filter.mp hp
      have h3 := List.mem_filter.mp h2.1
      have h4 := of_decide_eq_true h3.2
      exact hnone p h3.1 h4.1 h4.2 (of_decide_eq_true h2.2)
    rw [if_neg h1]
    have hp0mem : p0 ∈ s.projects := List.mem_of_find?_eq_some hfindp
    have hb0 := List.find?_some hfindp
    have hp0pred : p0.project_name = pn ∧ p0.customer_id = c0.customer_id :=
      of_decide_eq_true hb0
    have h2 : 0 < ((s.projects.filter (fun q =>
        decide (q.project_name = pn ∧
          q.customer_id = c0.customer_id))).filter
        (fun q => decide (q.is_current = 0))).length := by
      refine List.length_pos.mpr (List.ne_nil_of_mem (List.mem_filter.mpr
        ⟨List.mem_filter.mpr ⟨hp0mem, decide_eq_true hp0pred⟩,
         decide_eq_true hp0⟩))
    rw [if_pos h2]
    rw [head?_filter_eq_find?, hfindp]

/-- Claim C8, witness: with a single-version customer, a duplicate add of an
existing current project is rejected, and an add over a disabled project row
reactivates that row in place. -/
theorem __add_customer_project_checks_witness :
    __add_customer_project exBase exDate "Web" "Acme" =
      (exBase, false, "Project already exists in database!") ∧
    __add_customer_project exDisabled exDate "Web" "Acme" =
      ({ exDisabled with projects := exDisabled.projects.map (fun p =>
          if p.project_id = 1 then { p with is_current := 1 } else p) },
       true, "Project has been reactivated!") := by
  refine ⟨(__add_customer_project_checks exBase exDate "Web" "Acme"
      ⟨1, "Acme", exDate, 100, exDate, none, 1, some (exDT 8), none⟩
      (by decide)).1 ⟨⟨1, 1, "Web", 1⟩, by decide, rfl, rfl, rfl⟩,
    (__add_customer_project_checks exDisabled exDate "Web" "Acme"
      ⟨1, "Acme", exDate, 100, exDate, none, 1, some (exDT 8), none⟩
      (by decide)).2 ⟨1, 1, "Web", 0⟩ (by decide) (by decide) rfl⟩

/-- Claim C2, counterexample: the per-pair invariant is false — the toggle
only looks for open spans whose `date(start_time)` equals the current date,
so an open span left from 2024-01-02 is not found by a toggle on 2024-01-03,
which inserts a second open row for the same (customer, project) pair; the
stale span (time_id 1) stays open. -/
theorem open_span_per_pair_counterexample :
    Reachable exCross2 ∧
    openCountPair exCross2 1 1 = 2 ∧
    (exCross2.time.find? (fun r => r.time_id = 1)).map (fun r => r.end_time) =
      some none := by
  refine ⟨reach_exCross2, by decide, by decide⟩

/-- Claim C2, amended: in every reachable state, for every (customer_id,
project_id) pair *and start date*, at most one time row is open; and a
toggle that finds an open span for the pair started on the toggle's own date
closes that span — the time table's length is unchanged and no open row for
that (pair, date) remains — instead of inserting a second open row.  (An
open span started on an earlier date is not found and a second open row is
inserted, as the counterexample shows.) -/
theorem at_most_one_open_per_pair_day (s : DB) (hreach : Reachable s) :
    (∀ (cid pid : Int) (d : Date), openCountDay s cid pid d ≤ 1) ∧
    (∀ (now : DateTime) (cn pn : String) (c : Option String) (dk : Nat)
       (target : TimeRow),
      ¬ __get_customer_id s cn now.date = -1 →
      ¬ __get_project_id s pn = -1 →
      dateKeyLookup now.date = some dk →
      0 < openCountDay s (__get_customer_id s cn now.date)
        (__get_project_id s pn) now.date →
      argmaxId (dayRows s (__get_customer_id s cn now.date)
        (__get_project_id s pn) now.date) = some target →
      (insert_time_row s now cn pn c).time.length = s.time.length ∧
      openCountDay (insert_time_row s now cn pn c)
        (__get_customer_id s cn now.date) (__get_project_id s pn)
        now.date = 0) := by
  refine ⟨(reach_inv hreach).openDayLe, ?_⟩
  intro now cn pn c dk target hc1 hp1 hdk hopen htarget
  rw [insert_time_row_close_eq s now cn pn c dk target hc1 hp1 hdk hopen
    htarget]
  constructor
  · dsimp only
    exact List.length_map _ _
  · exact openCountDay_close_zero s now _ _ c _ _ now.date target
      (reach_inv hreach).openMax htarget

/-- Claim C2, witness: on the concrete state with one open same-day span,
the second toggle closes it — no insert happens and no open row remains for
the (pair, date). -/
theorem at_most_one_open_per_pair_day_witness :
    (insert_time_row exOpen (exDT 12) "Acme" "Web" none).time.length =
      exOpen.time.length ∧
    openCountDay (insert_time_row exOpen (exDT 12) "Acme" "Web" none) 1 1
      exDate = 0 :=
  (at_most_one_open_per_pair_day exOpen reach_exOpen).2 (exDT 12) "Acme"
    "Web" none 20240101
    ⟨1, 1, "Acme", 1, "Web", exDT 10, none, none, 20240101,
      none, none, none, none⟩
    (by decide) (by decide) (by decide) (by decide) (by decide)

/-- Claim C1: when the toggle closes the open span started today (the target
row, whose start date equals the toggle date), the stored derived fields are
`total_time = (end - start)` julian-day difference times 24 (fractional
hours), `cost = total_time * wage` with the wage resolved through
`__get_customer_id` as of the entry's start date, the `bonus` column = the
bonus percent whose interval contains the entry's start date, and the `wage`
column = `cost * bonus_percent` (the bonus amount). -/
theorem insert_time_row_close_derived_fields (s : DB) (now : DateTime)
    (cn pn : String) (c : Option String) (dk : Nat) (target : TimeRow)
    (hreach : Reachable s)
    (hc1 : ¬ __get_customer_id s cn now.date = -1)
    (hp1 : ¬ __get_project_id s pn = -1)
    (hdk : dateKeyLookup now.date = some dk)
    (hopen : 0 < openCountDay s (__get_customer_id s cn now.date)
      (__get_project_id s pn) now.date)
    (htarget : argmaxId (dayRows s (__get_customer_id s cn now.date)
      (__get_project_id s pn) now.date) = some target) :
    target.start_time.date = now.date ∧
    lookupTime (insert_time_row s now cn pn c) target.time_id =
      some (closeRow now (wageOfId s (__get_customer_id s cn now.date))
        (bonusOfDate s now.date) c target) ∧
    (∀ (w b : ℚ) (r : TimeRow),
      (closeRow now w b c r).total_time =
        some ((julianday now - julianday r.start_time) * 24) ∧
      (closeRow now w b c r).cost =
        some ((julianday now - julianday r.start_time) * 24 * w) ∧
      (closeRow now w b c r).bonus = some b ∧
      (closeRow now w b c r).wage =
        some ((julianday now - julianday r.start_time) * 24 * w * b)) := by
  have hmemk := argmaxId_mem htarget
  rw [dayRows, List.mem_filter] at hmemk
  have hkey : target.customer_id = __get_customer_id s cn now.date ∧
      target.project_id = __get_project_id s pn ∧
      target.start_time.date = now.date := by
    have h2 := hmemk.2
    rw [timeKeyB] at h2
    exact of_decide_eq_true h2
  refine ⟨hkey.2.2, ?_, fun w b r => ⟨rfl, rfl, rfl, rfl⟩⟩
  rw [insert_time_row_close_eq s now cn pn c dk target hc1 hp1 hdk hopen
    htarget]
  unfold lookupTime
  dsimp only
  rw [find?_id_map _ _ _
    (fun a => (closeRow_guard_preserves now _ _ c target.time_id a).1)]
  rw [find?_id_self s.time target hmemk.1 (reach_inv hreach).timeNodup]
  rw [Option.map_some']
  rw [if_pos rfl]

/-- Claim C1, witness: the concrete instance — wage 100, bonus percent 0.25,
a span from 10:00 to 12:00 (2 hours) — yields stored fields
`total_time = 2.0`, `cost = 200`, bonus percent 0.25 in column `bonus`, and
bonus amount 50 in column `wage`. -/
theorem insert_time_row_close_derived_fields_witness :
    (lookupTime (insert_time_row exOpen (exDT 12) "Acme" "Web" none) 1).map
      (fun r => (r.total_time, r.cost, r.bonus, r.wage)) =
      some (some 2, some 200, some (1/4), some 50) := by
  have h := insert_time_row_close_derived_fields exOpen (exDT 12) "Acme"
    "Web" none 20240101
    ⟨1, 1, "Acme", 1, "Web", exDT 10, none, none, 20240101,
      none, none, none, none⟩
    reach_exOpen (by decide) (by decide) (by decide) (by decide) (by decide)
  rw [h.2.1]
  have hw : wageOfId exOpen (__get_customer_id exOpen "Acme" (exDT 12).date) =
      100 := by rfl
  have hb : bonusOfDate exOpen (exDT 12).date = 1/4 := by rfl
  rw [hw, hb]
  simp only [Option.map_some, closeRow]
  norm_num [julianday, rataDie, monthOffset, isLeap, exDT, exDate]

theorem openCountDay_le_keyCountDay (s : DB) (cid pid : Int) (d : Date) :
    openCountDay s cid pid d ≤ keyCountDay s cid pid d := by
  refine List.countP_mono_left (fun x _ hx => ?_)
  rw [Bool.and_eq_true] at hx
  exact hx.1

theorem dayRows_nil_of_keyCountDay_zero (s : DB) (cid pid : Int) (d : Date)
    (h : keyCountDay s cid pid d = 0) : dayRows s cid pid d = [] := by
  rw [keyCountDay_eq_length_dayRows] at h
  exact List.length_eq_zero.mp h

theorem toggle_third_step (s2 : DB) (now3 : DateTime) (cn pn : String)
    (c3 : Option String) (dk : Nat)
    (hc : ¬ __get_customer_id s2 cn now3.date = -1)
    (hp : ¬ __get_project_id s2 pn = -1)
    (hdk : dateKeyLookup now3.date = some dk)
    (hopen : openCountDay s2 (__get_customer_id s2 cn now3.date)
      (__get_project_id s2 pn) now3.date = 0)
    (hkey : keyCountDay s2 (__get_customer_id s2 cn now3.date)
      (__get_project_id s2 pn) now3.date = 1) :
    keyCountDay (insert_time_row s2 now3 cn pn c3)
      (__get_customer_id s2 cn now3.date) (__get_project_id s2 pn)
      now3.date = 2 ∧
    closedCountDay (insert_time_row s2 now3 cn pn c3)
      (__get_customer_id s2 cn now3.date) (__get_project_id s2 pn)
      now3.date = 1 ∧
    openCountDay (insert_time_row s2 now3 cn pn c3)
      (__get_customer_id s2 cn now3.date) (__get_project_id s2 pn)
      now3.date = 1 := by
  have hclosed : closedCountDay s2 (__get_customer_id s2 cn now3.date)
      (__get_project_id s2 pn) now3.date = 1 := by
    have hsplit : openCountDay s2 (__get_customer_id s2 cn now3.date)
        (__get_project_id s2 pn) now3.date +
        closedCountDay s2 (__get_customer_id s2 cn now3.date)
          (__get_project_id s2 pn) now3.date =
        keyCountDay s2 (__get_customer_id s2 cn now3.date)
          (__get_project_id s2 pn) now3.date :=
      countP_conj_split (timeKeyB (__get_customer_id s2 cn now3.date)
        (__get_project_id s2 pn) now3.date)
        (fun r => decide (r.end_time = none)) s2.time
    omega
  have e3 := insert_time_row_insert_eq s2 now3 cn pn c3 dk hc hp hdk hopen
  rw [e3]
  have hkb3 : timeKeyB (__get_customer_id s2 cn now3.date)
      (__get_project_id s2 pn) now3.date
      (⟨s2.nextTimeId, __get_customer_id s2 cn now3.date, cn,
        __get_project_id s2 pn, pn, now3, none, none, dk,
        none, none, none, none⟩ : TimeRow) = true := by
    rw [timeKeyB]
    exact decide_eq_true ⟨rfl, rfl, rfl⟩
  refine ⟨?_, ?_, ?_⟩
  · rw [keyCountDay]
    dsimp only
    rw [List.countP_append]
    have hk : List.countP (timeKeyB (__get_customer_id s2 cn now3.date)
        (__get_project_id s2 pn) now3.date) s2.time = 1 := hkey
    rw [hk]
    simp [List.countP_cons, hkb3]
  · rw [closedCountDay]
    dsimp only
    rw [List.countP_append]
    have hk : List.countP (fun r => timeKeyB (__get_customer_id s2 cn now3.date)
        (__get_project_id s2 pn) now3.date r && !decide (r.end_time = none))
        s2.time = 1 := hclosed
    rw [hk]
    simp [List.countP_cons, hkb3]
  · rw [openCountDay]
    dsimp only
    rw [List.countP_append]
    have hk : List.countP (fun r => timeKeyB (__get_customer_id s2 cn now3.date)
        (__get_project_id s2 pn) now3.date r && decide (r.end_time = none))
        s2.time = 0 := hopen
    rw [hk]
    simp [List.countP_cons, hkb3]

/-- Claim C7, counterexample: starting from a state with no open span (no
rows at all) for the pair, three toggles (open, close, reopen) produce *one*
fully-closed row plus one open row — not the two closed rows plus one open
row the claim states. -/
theorem toggle_round_trip_counterexample :
    Reachable exBase ∧
    openCountPair exBase 1 1 = 0 ∧
    keyCountDay exBase 1 1 exDate = 0 ∧
    closedCountDay exTriple 1 1 exDate = 1 ∧
    openCountDay exTriple 1 1 exDate = 1 ∧
    ¬ closedCountDay exTriple 1 1 exDate = 2 := by
  refine ⟨reach_exBase, by decide, by decide, by decide, by decide, by decide⟩

/-- Claim C7, amended: starting from a reachable state with no time rows for
the pair on the toggle date (in particular no open span), performing the
toggle three times on the same date — open, close, reopen — yields exactly
one fully-closed historical row plus one open row for that pair and date
(two rows in total), not two closed rows plus one open one. -/
theorem toggle_round_trip (s : DB) (now1 : DateTime) (k2 k3 : Nat)
    (cn pn : String) (c1 c2 c3 : Option String) (dk : Nat)
    (hreach : Reachable s)
    (hc1 : ¬ __get_customer_id s cn now1.date = -1)
    (hp1 : ¬ __get_project_id s pn = -1)
    (hdk : dateKeyLookup now1.date = some dk)
    (hkey0 : keyCountDay s (__get_customer_id s cn now1.date)
      (__get_project_id s pn) now1.date = 0) :
    keyCountDay
      (insert_time_row (insert_time_row (insert_time_row s now1 cn pn c1)
        ⟨now1.date, k2⟩ cn pn c2) ⟨now1.date, k3⟩ cn pn c3)
      (__get_customer_id s cn now1.date) (__get_project_id s pn)
      now1.date = 2 ∧
    closedCountDay
      (insert_time_row (insert_time_row (insert_time_row s now1 cn pn c1)
        ⟨now1.date, k2⟩ cn pn c2) ⟨now1.date, k3⟩ cn pn c3)
      (__get_customer_id s cn now1.date) (__get_project_id s pn)
      now1.date = 1 ∧
    openCountDay
      (insert_time_row (insert_time_row (insert_time_row s now1 cn pn c1)
        ⟨now1.date, k2⟩ cn pn c2) ⟨now1.date, k3⟩ cn pn c3)
      (__get_customer_id s cn now1.date) (__get_project_id s pn)
      now1.date = 1 := by
  have hopen0 : openCountDay s (__get_customer_id s cn now1.date)
      (__get_project_id s pn) now1.date = 0 :=
    Nat.le_zero.mp (hkey0 ▸ openCountDay_le_keyCountDay s _ _ now1.date)
  have e1 := insert_time_row_insert_eq s now1 cn pn c1 dk hc1 hp1 hdk hopen0
  rw [e1]
  have hfs : List.filter (timeKeyB (__get_customer_id s cn now1.date)
      (__get_project_id s pn) now1.date) s.time = [] := by
    have h := dayRows_nil_of_keyCountDay_zero s _ _ _ hkey0
    rw [dayRows] at h
    exact h
  have hkb1 : timeKeyB (__get_customer_id s cn now1.date)
      (__get_project_id s pn) now1.date
      (⟨s.nextTimeId, __get_customer_id s cn now1.date, cn,
        __get_project_id s pn, pn, now1, none, none, dk,
        none, none, none, none⟩ : TimeRow) = true := by
    rw [timeKeyB]
    exact decide_eq_true ⟨rfl, rfl, rfl⟩
  have hday1 : dayRows
      { s with
        time := s.time ++
          [⟨s.nextTimeId, __get_customer_id s cn now1.date, cn,
            __get_project_id s pn, pn, now1, none, none, dk,
            none, none, none, none⟩],
        nextTimeId := s.nextTimeId + 1 }
      (__get_customer_id s cn now1.date) (__get_project_id s pn) now1.date =
      [⟨s.nextTimeId, __get_customer_id s cn now1.date, cn,
        __get_project_id s pn, pn, now1, none, none, dk,
        none, none, none, none⟩] := by
    rw [dayRows]
    dsimp only
    rw [List.filter_append, hfs]
    simp [List.filter_cons, hkb1]
  have hopen1 : openCountDay
      { s with
        time := s.time ++
          [⟨s.nextTimeId, __get_customer_id s cn now1.date, cn,
            __get_project_id s pn, pn, now1, none, none, dk,
            none, none, none, none⟩],
        nextTimeId := s.nextTimeId + 1 }
      (__get_customer_id s cn now1.date) (__get_project_id s pn)
      now1.date = 1 := by
    rw [openCountDay_eq_countP_dayRows, hday1]
    simp [List.countP_cons]
  have hkey1 : keyCountDay
      { s with
        time := s.time ++
          [⟨s.nextTimeId, __get_customer_id s cn now1.date, cn,
            __get_project_id s pn, pn, now1, none, none, dk,
            none, none, none, none⟩],
        nextTimeId := s.nextTimeId + 1 }
      (__get_customer_id s cn now1.date) (__get_project_id s pn)
      now1.date = 1 := by
    rw [keyCountDay_eq_length_dayRows, hday1]
    rfl
  have htarget1 : argmaxId (dayRows
      { s with
        time := s.time ++
          [⟨s.nextTimeId, __get_customer_id s cn now1.date, cn,
            __get_project_id s pn, pn, now1, none, none, dk,
            none, none, none, none⟩],
        nextTimeId := s.nextTimeId + 1 }
      (__get_customer_id s cn now1.date) (__get_project_id s pn)
      now1.date) = some
      (⟨s.nextTimeId, __get_customer_id s cn now1.date, cn,
        __get_project_id s pn, pn, now1, none, none, dk,
        none, none, none, none⟩ : TimeRow) := by
    rw [hday1]
    rfl
  have hreach1 : Reachable
      { s with
        time := s.time ++
          [⟨s.nextTimeId, __get_customer_id s cn now1.date, cn,
            __get_project_id s pn, pn, now1, none, none, dk,
            none, none, none, none⟩],
        nextTimeId := s.nextTimeId + 1 } :=
    e1 ▸ Reachable.insert_time_row_step s now1 cn pn c1 hreach
  have e2 := insert_time_row_close_eq
    { s with
        time := s.time ++
          [⟨s.nextTimeId, __get_customer_id s cn now1.date, cn,
            __get_project_id s pn, pn, now1, none, none, dk,
            none, none, none, none⟩],
        nextTimeId := s.nextTimeId + 1 }
    ⟨now1.date, k2⟩ cn pn c2 dk
    (⟨s.nextTimeId, __get_customer_id s cn now1.date, cn,
      __get_project_id s pn, pn, now1, none, none, dk,
      none, none, none, none⟩ : TimeRow)
    hc1 hp1 hdk (Nat.lt_of_lt_of_le Nat.zero_lt_one (Nat.le_of_eq hopen1.symm)) htarget1
  rw [e2]
  have hopen2 := openCountDay_close_zero
    { s with
        time := s.time ++
          [⟨s.nextTimeId, __get_customer_id s cn now1.date, cn,
            __get_project_id s pn, pn, now1, none, none, dk,
            none, none, none, none⟩],
        nextTimeId := s.nextTimeId + 1 }
    ⟨now1.date, k2⟩
    (wageOfId
      { s with
        time := s.time ++
          [⟨s.nextTimeId, __get_customer_id s cn now1.date, cn,
            __get_project_id s pn, pn, now1, none, none, dk,
            none, none, none, none⟩],
        nextTimeId := s.nextTimeId + 1 }
      (__get_customer_id s cn now1.date) : ℚ)
    (bonusOfDate
      { s with
        time := s.time ++
          [⟨s.nextTimeId, __get_customer_id s cn now1.date, cn,
            __get_project_id s pn, pn, now1, none, none, dk,
            none, none, none, none⟩],
        nextTimeId := s.nextTimeId + 1 }
      now1.date)
    c2 (__get_customer_id s cn now1.date) (__get_project_id s pn) now1.date
    (⟨s.nextTimeId, __get_customer_id s cn now1.date, cn,
      __get_project_id s pn, pn, now1, none, none, dk,
      none, none, none, none⟩ : TimeRow)
    (reach_inv hreach1).openMax htarget1
  have hkey2 := (keyCountDay_close
    { s with
        time := s.time ++
          [⟨s.nextTimeId, __get_customer_id s cn now1.date, cn,
            __get_project_id s pn, pn, now1, none, none, dk,
            none, none, none, none⟩],
        nextTimeId := s.nextTimeId + 1 }
    ⟨now1.date, k2⟩
    (wageOfId
      { s with
        time := s.time ++
          [⟨s.nextTimeId, __get_customer_id s cn now1.date, cn,
            __get_project_id s pn, pn, now1, none, none, dk,
            none, none, none, none⟩],
        nextTimeId := s.nextTimeId + 1 }
      (__get_customer_id s cn now1.date) : ℚ)
    (bonusOfDate
      { s with
        time := s.time ++
          [⟨s.nextTimeId, __get_customer_id s cn now1.date, cn,
            __get_project_id s pn, pn, now1, none, none, dk,
            none, none, none, none⟩],
        nextTimeId := s.nextTimeId + 1 }
      now1.date)
    c2 s.nextTimeId (__get_customer_id s cn now1.date)
    (__get_project_id s pn) now1.date).trans hkey1
  exact toggle_third_step _ ⟨now1.date, k3⟩ cn pn c3 dk hc1 hp1 hdk hopen2
    hkey2

/-- Witness for the amended C7 theorem: the concrete triple toggle
`exBase → exOpen → exClosed → exTriple` at 10:00, 12:00 and 13:00 on
2024-01-01 satisfies every hypothesis and lands on exactly two rows for
(Acme, Web) that day — one closed and one open. -/
theorem toggle_round_trip_witness :
    (¬ __get_customer_id exBase "Acme" (exDT 10).date = -1) ∧
    (¬ __get_project_id exBase "Web" = -1) ∧
    dateKeyLookup (exDT 10).date = some 20240101 ∧
    keyCountDay exBase (__get_customer_id exBase "Acme" (exDT 10).date)
      (__get_project_id exBase "Web") (exDT 10).date = 0 ∧
    (keyCountDay
        (insert_time_row (insert_time_row (insert_time_row exBase (exDT 10)
          "Acme" "Web" none) ⟨(exDT 10).date, 12 * 3600⟩ "Acme" "Web" none)
          ⟨(exDT 10).date, 13 * 3600⟩ "Acme" "Web" none)
        (__get_customer_id exBase "Acme" (exDT 10).date)
        (__get_project_id exBase "Web") (exDT 10).date = 2 ∧
      closedCountDay
        (insert_time_row (insert_time_row (insert_time_row exBase (exDT 10)
          "Acme" "Web" none) ⟨(exDT 10).date, 12 * 3600⟩ "Acme" "Web" none)
          ⟨(exDT 10).date, 13 * 3600⟩ "Acme" "Web" none)
        (__get_customer_id exBase "Acme" (exDT 10).date)
        (__get_project_id exBase "Web") (exDT 10).date = 1 ∧
      openCountDay
        (insert_time_row (insert_time_row (insert_time_row exBase (exDT 10)
          "Acme" "Web" none) ⟨(exDT 10).date, 12 * 3600⟩ "Acme" "Web" none)
          ⟨(exDT 10).date, 13 * 3600⟩ "Acme" "Web" none)
        (__get_customer_id exBase "Acme" (exDT 10).date)
        (__get_project_id exBase "Web") (exDT 10).date = 1) :=
  ⟨by decide, by decide, by decide, by decide,
    toggle_round_trip exBase (exDT 10) (12 * 3600) (13 * 3600) "Acme" "Web"
      none none none 20240101 reach_exBase (by decide) (by decide)
      (by decide) (by decide)⟩

end WorkTimer
